import Mathlib

/-! Biome-Gen-Chunks: a shallow embedding of `sketch.js`.

The terrain generator, the chunk store and the visible-window maintenance of
`src/sketch.js` are embedded as Lean functions.  JavaScript numbers are
modelled by `Int` where the source only ever holds integers (chunk and block
coordinates, the render distance) and by `Rat` elsewhere (camera position,
elevation, temperature, rainfall).  Global variables of the sketch are the
fields of `World`; a function that mutates globals returns the new `World`.
Functions of the p5.js library whose result is not determined by the sketch
(`noise`, `atan2`, `cos`, `sin`, `dist`) are parameters collected in `P5`.
-/

namespace BiomeGen

/-! ## Constants -/

def CHUNK_SIZE : Nat := 16
def CHUNK_HEIGHT_MIN : Rat := 0
def SEA_LEVEL : Rat := 150
def CHUNK_HEIGHT_MAX : Rat := 300
def DEFAULT_CAM_ZOOM : Rat := 3 / 10
def DEFAULT_RENDER_DISTANCE : Int := 20

/-- Canvas width, fixed by `createCanvas(1000, 1000)` in `setup`. -/
def width : Rat := 1000
/-- Canvas height, fixed by `createCanvas(1000, 1000)` in `setup`. -/
def height : Rat := 1000

/-! ## p5.js library functions -/

/-- The p5.js library functions whose values the sketch does not determine. -/
structure P5 where
  noise : Rat → Rat → Rat
  atan2 : Rat → Rat → Rat
  cos : Rat → Rat
  sin : Rat → Rat
  dist : Rat → Rat → Rat → Rat → Rat

/-- The p5.js function `map(n, start1, stop1, start2, stop2)`: linear remapping. -/
def map (n start1 stop1 start2 stop2 : Rat) : Rat :=
  (n - start1) / (stop1 - start1) * (stop2 - start2) + start2

/-- The p5.js function `constrain(n, low, high)`, which is
`Math.max(Math.min(n, high), low)`, on rationals. -/
def constrain (n low high : Rat) : Rat := max (min n high) low

/-- The p5.js function `constrain(n, low, high)` on integers. -/
def constrainInt (n low high : Int) : Int := max (min n high) low

/-- The p5.js function `floor`. -/
def floor (x : Rat) : Int := Int.floor x

/-! ## Classes -/

/-- The entries of the `Biome` table. -/
inductive Biome where
  | DESERT | SAVANNA | PLAINS | SHRUBLAND | JUNGLE | FOREST | BEACH | SNOWYPEAKS
  | TUNDRA | TAIGA | OCEAN | DEEPOCEAN | WARMOCEAN | COLDOCEAN | MOUNTAINS | NULL
  deriving DecidableEq

/-- Class `Block`; `biome = none` is the JavaScript `null`. -/
structure Block where
  x : Int
  z : Int
  y : Rat
  temp : Rat
  rainfall : Rat
  biome : Option Biome
  deriving DecidableEq

/-- Class `Chunk`; `blocks` is indexed `blocks[xi][zi]`. -/
structure Chunk where
  x : Int
  z : Int
  blocks : List (List Block)
  deriving DecidableEq

/-- The entry `blocks[xi][zi]` of a grid; `none` when the index is outside the grid. -/
def gridAt (blocks : List (List Block)) (xi zi : Nat) : Option Block :=
  match blocks[xi]? with
  | some col => col[zi]?
  | none => none

/-- The entry `blocks[xi][zi]` of a chunk for JavaScript (integer) indices. -/
def Chunk.blockAt (c : Chunk) (xi zi : Int) : Option Block :=
  if 0 ≤ xi ∧ 0 ≤ zi then gridAt c.blocks xi.toNat zi.toNat else none

/-- The global variables of the sketch that the world logic reads or writes. -/
structure World where
  camX : Rat
  camZ : Rat
  prevCamChunkX2 : Int
  prevCamChunkZ2 : Int
  camZoom : Rat
  renderDistance : Int
  generatedChunks : List Chunk
  visibleChunks : List Chunk
  worldGenScale : Rat
  worldGenType : String
  getVisibleChunksNextFrame : Bool
  visibleSize : Rat

/-- The initial values of the globals (lines 20-35 of the sketch). -/
def World.init : World :=
  { camX := 0, camZ := 0, prevCamChunkX2 := 0, prevCamChunkZ2 := 0,
    camZoom := DEFAULT_CAM_ZOOM, renderDistance := DEFAULT_RENDER_DISTANCE,
    generatedChunks := [], visibleChunks := [],
    worldGenScale := 1 / 100, worldGenType := "Default",
    getVisibleChunksNextFrame := true, visibleSize := 5 }

/-! ## generateChunk -/

/-- Apply a per-cell update to every block, as the nested `zi`/`xi` loops do. -/
def mapBlocks (f : Nat → Nat → Block → Block) (blocks : List (List Block)) : List (List Block) :=
  blocks.enum.map fun col => col.2.enum.map fun cell => f col.1 cell.1 cell.2

/-- The "Create blocks" loops: `blocks[xi][zi]` is a fresh block with its world coordinates. -/
def createBlocks (chunkWorldX chunkWorldZ : Int) : List (List Block) :=
  (List.range CHUNK_SIZE).map fun (xi : Nat) => (List.range CHUNK_SIZE).map fun (zi : Nat) =>
    { x := chunkWorldX + xi, z := chunkWorldZ + zi, y := 0, temp := 0, rainfall := 0,
      biome := none }

/-- The value of the local variable `biome` after the land-band tests (lines 302-315 and
432-445); it is the value tested by `if(biome == null)` at lines 316 and 446. -/
def landBiome (temp rainfall : Rat) : Option Biome :=
  if temp < 25 / 100 then
    if rainfall < 25 / 100 then some Biome.TUNDRA else some Biome.TAIGA
  else if temp < 5 / 10 then
    if rainfall < 25 / 100 then some Biome.PLAINS else some Biome.SHRUBLAND
  else
    if rainfall < 25 / 100 then some Biome.DESERT
    else if rainfall < 5 / 10 then some Biome.SAVANNA
    else if rainfall < 75 / 100 then some Biome.FOREST
    else some Biome.JUNGLE

/-- The body of the Default-mode "Biomes" loop (lines 283-328) for one block. -/
def defaultBiomeCell (block : Block) : Block :=
  let y := block.y
  let temp := block.temp
  let rainfall := block.rainfall
  if y < SEA_LEVEL then
    let biome :=
      if y < SEA_LEVEL / 2 then some Biome.DEEPOCEAN
      else
        if temp < 33 / 100 then some Biome.COLDOCEAN
        else if temp < 66 / 100 then some Biome.OCEAN
        else some Biome.WARMOCEAN
    { block with biome := biome }
  else if y < CHUNK_HEIGHT_MAX / (14 / 10) then
    let biome := landBiome temp rainfall
    let block := if biome = none then { block with biome := some Biome.NULL } else block
    { block with biome := biome }
  else
    let biome := some Biome.MOUNTAINS
    let biome :=
      if temp > 5 / 10 then
        if y > CHUNK_HEIGHT_MAX / (12 / 10) then some Biome.SNOWYPEAKS else biome
      else
        if y > CHUNK_HEIGHT_MAX / (135 / 100) then some Biome.SNOWYPEAKS else biome
    { block with biome := biome }

/-- The body of the Zenith-mode "Biomes" loop (lines 415-457) for one block. -/
def zenithBiomeCell (block : Block) : Block :=
  let y := block.y
  let temp := block.temp
  let rainfall := block.rainfall
  if y < SEA_LEVEL then
    let biome :=
      if y < SEA_LEVEL / 2 then some Biome.DEEPOCEAN
      else
        if temp < 33 / 100 then some Biome.COLDOCEAN
        else if temp < 66 / 100 then some Biome.OCEAN
        else some Biome.WARMOCEAN
    { block with biome := biome }
  else if y < CHUNK_HEIGHT_MAX / (14 / 10) then
    let biome := landBiome temp rainfall
    let block := if biome = none then { block with biome := some Biome.NULL } else block
    { block with biome := biome }
  else
    let biome := some Biome.MOUNTAINS
    let biome :=
      if temp > 5 / 10 then
        if y > CHUNK_HEIGHT_MAX / (12 / 10) then some Biome.SNOWYPEAKS else biome
      else
        if y > CHUNK_HEIGHT_MAX / (135 / 100) then some Biome.SNOWYPEAKS else biome
    { block with biome := biome }

/-- The noise sample `noise((chunkWorldX + xi + offsetX) * localScale,
(chunkWorldZ + zi + offsetZ) * localScale)` used by every channel. -/
def sampleNoise (p5 : P5) (chunkWorldX chunkWorldZ : Int) (xi zi : Nat)
    (offsetX offsetZ : Int) (localScale : Rat) : Rat :=
  p5.noise (((chunkWorldX + xi + offsetX : Int) : Rat) * localScale)
    (((chunkWorldZ + zi + offsetZ : Int) : Rat) * localScale)

/-- The elevation computed for one Zenith cell from the ocean-floor elevation, the
wobbled island radius and the distance from the island centre (lines 363-383). -/
def zenithElevation (oceanElev variedIslandRadius distFromIslandCenter : Rat) : Rat :=
  let distFromIslandEdge := distFromIslandCenter - variedIslandRadius
  let oceanToIslandBlendDist := variedIslandRadius / 4
  let distFromIslandEdgeClamped := constrain distFromIslandEdge 0 oceanToIslandBlendDist
  let distFromOceanIslandBlend := distFromIslandEdge - oceanToIslandBlendDist
  let oceanMaxDistanceFromIsland := variedIslandRadius * 3
  let y := CHUNK_HEIGHT_MIN
  if distFromIslandEdgeClamped < oceanToIslandBlendDist then
    let blendFactor := map distFromIslandEdgeClamped 0 oceanToIslandBlendDist 1 0
    let diffToSeaLevel := SEA_LEVEL - oceanElev
    oceanElev + (diffToSeaLevel * blendFactor)
  else if distFromOceanIslandBlend < oceanMaxDistanceFromIsland then
    oceanElev
  else y

/-- The body of the Zenith-mode elevation loop (lines 351-384) for one block. -/
def zenithHeightCell (p5 : P5) (worldGenScale : Rat) (chunkWorldX chunkWorldZ : Int)
    (xi zi : Nat) (block : Block) : Block :=
  let islandRadius : Rat := 500
  let islandCenterX : Rat := 0
  let islandCenterY : Rat := 0
  let oceanFloorMax : Rat := SEA_LEVEL / 2
  let n := sampleNoise p5 chunkWorldX chunkWorldZ xi zi 56852 27384 worldGenScale
  let oceanElev := map n 0 1 CHUNK_HEIGHT_MIN oceanFloorMax
  let directionToCenter :=
    p5.atan2 (((chunkWorldZ + zi : Int) : Rat) - islandCenterY)
      (((chunkWorldX + xi : Int) : Rat) - islandCenterX)
  let islandEdgeVariationNoise :=
    p5.noise (p5.cos directionToCenter + 1000) (p5.sin directionToCenter + 1000)
  let islandEdgeVariation := map islandEdgeVariationNoise 0 1 (-1) 1 * islandRadius / 4
  let variedIslandRadius := islandRadius + islandEdgeVariation
  let distFromIslandCenter :=
    p5.dist ((chunkWorldX + xi : Int) : Rat) ((chunkWorldZ + zi : Int) : Rat)
      islandCenterX islandCenterY
  { block with y := zenithElevation oceanElev variedIslandRadius distFromIslandCenter }

/-- The body of `generateChunk` up to, and excluding, `generatedChunks.push(newChunk)`. -/
def buildChunk (p5 : P5) (worldGenScale : Rat) (worldGenType : String)
    (chunkX chunkZ : Int) : Chunk :=
  let chunkWorldX := chunkX * CHUNK_SIZE
  let chunkWorldZ := chunkZ * CHUNK_SIZE
  let blocks := createBlocks chunkWorldX chunkWorldZ
  let tempPass := mapBlocks fun xi zi block =>
    { block with
      temp := sampleNoise p5 chunkWorldX chunkWorldZ xi zi 97445 43758 (worldGenScale / 4) }
  let rainPass := mapBlocks fun xi zi block =>
    { block with
      rainfall := sampleNoise p5 chunkWorldX chunkWorldZ xi zi 85637 23548 (worldGenScale / 4) }
  let blocks :=
    if worldGenType = "Default" then
      let blocks := mapBlocks (fun xi zi block =>
        let n := sampleNoise p5 chunkWorldX chunkWorldZ xi zi 56852 27384 worldGenScale
        { block with y := map n 0 1 CHUNK_HEIGHT_MIN CHUNK_HEIGHT_MAX }) blocks
      let blocks := tempPass blocks
      let blocks := rainPass blocks
      mapBlocks (fun _ _ block => defaultBiomeCell block) blocks
    else if worldGenType = "Flat" then
      mapBlocks (fun _ _ block =>
        { block with y := SEA_LEVEL, temp := 5 / 10, rainfall := 5 / 10,
                     biome := some Biome.PLAINS }) blocks
    else if worldGenType = "Zenith" then
      let blocks := mapBlocks (zenithHeightCell p5 worldGenScale chunkWorldX chunkWorldZ) blocks
      let blocks := tempPass blocks
      let blocks := rainPass blocks
      mapBlocks (fun _ _ block => zenithBiomeCell block) blocks
    else blocks
  { x := chunkX, z := chunkZ, blocks := blocks }

/-- Function `generateChunk`: build the chunk, push it to `generatedChunks`, return it. -/
def generateChunk (p5 : P5) (w : World) (chunkX chunkZ : Int) : Chunk × World :=
  let newChunk := buildChunk p5 w.worldGenScale w.worldGenType chunkX chunkZ
  (newChunk, { w with generatedChunks := w.generatedChunks ++ [newChunk] })

/-! ## The chunk store and the visible set -/

/-- Function `getGeneratedChunk`: the first stored chunk with these coordinates, or `null`. -/
def getGeneratedChunk (generatedChunks : List Chunk) (chunkX chunkZ : Int) : Option Chunk :=
  generatedChunks.find? fun generatedChunk =>
    decide (generatedChunk.x = chunkX ∧ generatedChunk.z = chunkZ)

/-- Function `chunkIsAlreadyGenerated`. -/
def chunkIsAlreadyGenerated (generatedChunks : List Chunk) (chunkX chunkZ : Int) : Bool :=
  (getGeneratedChunk generatedChunks chunkX chunkZ).isSome

/-- Function `getVisibleChunk`. -/
def getVisibleChunk (visibleChunks : List Chunk) (chunkX chunkZ : Int) : Option Chunk :=
  visibleChunks.find? fun visibleChunk =>
    decide (visibleChunk.x = chunkX ∧ visibleChunk.z = chunkZ)

/-- Function `chunkIsAlreadyVisible`. -/
def chunkIsAlreadyVisible (visibleChunks : List Chunk) (chunkX chunkZ : Int) : Bool :=
  (getVisibleChunk visibleChunks chunkX chunkZ).isSome

/-- The get-or-generate expression used at lines 519-523, 551-555, 575-579 and 598-602:
`getGeneratedChunk(x, z)` when `chunkIsAlreadyGenerated(x, z)`, else `generateChunk(x, z)`.
The test is `getGeneratedChunk(x, z) !== null`, so both are one match on that lookup. -/
def getOrGenerate (p5 : P5) (w : World) (chunkX chunkZ : Int) : Chunk × World :=
  match getGeneratedChunk w.generatedChunks chunkX chunkZ with
  | some chunk => (chunk, w)
  | none => generateChunk p5 w chunkX chunkZ

/-- The statement `visibleChunks.push(<get-or-generate>)`. -/
def pushVisible (p5 : P5) (w : World) (chunkX chunkZ : Int) : World :=
  let r := getOrGenerate p5 w chunkX chunkZ
  { r.2 with visibleChunks := r.2.visibleChunks ++ [r.1] }

/-- The removal of lines 543-547 and 567-571: look the chunk up by coordinates and splice
it out at its `indexOf` position (nothing happens when the lookup or `indexOf` fails).
`indexOf` compares object identity and the model compares values; both find the position
of `toRemove` itself, the first chunk with these coordinates (`removeVisible_eq_eraseP`). -/
def removeVisible (visibleChunks : List Chunk) (removeChunkX removeChunkZ : Int) :
    List Chunk :=
  match getVisibleChunk visibleChunks removeChunkX removeChunkZ with
  | some toRemove => visibleChunks.eraseIdx (visibleChunks.indexOf toRemove)
  | none => visibleChunks

/-- The values taken by a loop variable in `for(let d = -r; d <= r; d++)`. -/
def offsets (r : Int) : List Int :=
  (List.range (2 * r + 1).toNat).map fun (i : Nat) => -r + (i : Int)

/-- The nested loops of the initial fill (lines 515-525), also the body of
`getVisibleChunksO` (lines 594-604). -/
def fillVisible (p5 : P5) (w : World) (camChunkX camChunkZ : Int) : World :=
  (offsets w.renderDistance).foldl (fun w dz =>
    (offsets w.renderDistance).foldl (fun w dx =>
      pushVisible p5 w (camChunkX + dx) (camChunkZ + dz)) w) w

/-- One unit step along x (lines 537-559), without the update of the local `dx`. -/
def stepX (p5 : P5) (w : World) (stepX : Int) : World :=
  let w := (offsets w.renderDistance).foldl (fun w zOff =>
    let removeChunkX := w.prevCamChunkX2 - (w.renderDistance * stepX)
    let removeChunkZ := w.prevCamChunkZ2 + zOff
    let w := { w with
      visibleChunks := removeVisible w.visibleChunks removeChunkX removeChunkZ }
    let addChunkX := w.prevCamChunkX2 + (w.renderDistance * stepX) + stepX
    let addChunkZ := w.prevCamChunkZ2 + zOff
    pushVisible p5 w addChunkX addChunkZ) w
  { w with prevCamChunkX2 := w.prevCamChunkX2 + stepX }

/-- One unit step along z (lines 561-583), without the update of the local `dz`. -/
def stepZ (p5 : P5) (w : World) (stepZ : Int) : World :=
  let w := (offsets w.renderDistance).foldl (fun w xOff =>
    let removeChunkX := w.prevCamChunkX2 + xOff
    let removeChunkZ := w.prevCamChunkZ2 - (w.renderDistance * stepZ)
    let w := { w with
      visibleChunks := removeVisible w.visibleChunks removeChunkX removeChunkZ }
    let addChunkX := w.prevCamChunkX2 + xOff
    let addChunkZ := w.prevCamChunkZ2 + (w.renderDistance * stepZ) + stepZ
    pushVisible p5 w addChunkX addChunkZ) w
  { w with prevCamChunkZ2 := w.prevCamChunkZ2 + stepZ }

/-- The `while(dx !== 0 || dz !== 0)` loop of `getVisibleChunks` (lines 535-585). -/
def reconcile (p5 : P5) (w : World) (dx dz : Int) : World :=
  if dx ≠ 0 then
    let sX : Int := if dx > 0 then 1 else -1
    reconcile p5 (stepX p5 w sX) (dx - sX) dz
  else if dz ≠ 0 then
    let sZ : Int := if dz > 0 then 1 else -1
    reconcile p5 (stepZ p5 w sZ) dx (dz - sZ)
  else w
termination_by dx.natAbs + dz.natAbs
decreasing_by
  all_goals simp_wf
  · split <;> omega
  · split <;> omega

/-- Function `getVisibleChunks`. -/
def getVisibleChunks (p5 : P5) (w : World) : World :=
  let camChunkX := floor (w.camX / CHUNK_SIZE)
  let camChunkZ := floor (w.camZ / CHUNK_SIZE)
  if w.visibleChunks.length = 0 then
    let w := fillVisible p5 w camChunkX camChunkZ
    { w with prevCamChunkX2 := camChunkX, prevCamChunkZ2 := camChunkZ }
  else
    let dx := camChunkX - w.prevCamChunkX2
    let dz := camChunkZ - w.prevCamChunkZ2
    reconcile p5 w dx dz

/-- Function `getVisibleChunksO`. -/
def getVisibleChunksO (p5 : P5) (w : World) : World :=
  let camChunkX := floor (w.camX / CHUNK_SIZE)
  let camChunkZ := floor (w.camZ / CHUNK_SIZE)
  let w := { w with visibleChunks := [] }
  fillVisible p5 w camChunkX camChunkZ

/-- Function `changeRenderDistance`. -/
def changeRenderDistance (w : World) (change : Int) : World :=
  let w := { w with renderDistance := w.renderDistance + change }
  let w := { w with renderDistance := constrainInt w.renderDistance 1 100 }
  let w := { w with getVisibleChunksNextFrame := true }
  { w with visibleChunks := [] }

/-- Function `recreateWorld`, drawing and reseeding of the noise aside. -/
def recreateWorld (w : World) : World :=
  { w with camX := 0, camZ := 0, camZoom := DEFAULT_CAM_ZOOM,
           renderDistance := DEFAULT_RENDER_DISTANCE,
           generatedChunks := [], visibleChunks := [],
           getVisibleChunksNextFrame := true }

/-- The world coordinate under a screen coordinate (lines 954-955, 967-968). -/
def screenToWorld (w : World) (screen extent cam : Rat) : Rat :=
  ((screen - extent / 2) / w.camZoom) / w.visibleSize + cam

/-- Function `getChunkFromWorldPos`. -/
def getChunkFromWorldPos (w : World) (worldX worldZ : Rat) : Option Chunk :=
  let chunkX := floor (worldX / CHUNK_SIZE)
  let chunkZ := floor (worldZ / CHUNK_SIZE)
  getGeneratedChunk w.generatedChunks chunkX chunkZ

/-- The chunk coordinate `floor(world / CHUNK_SIZE)` of a world coordinate. -/
def chunkCoord (world : Rat) : Int := floor (world / CHUNK_SIZE)

/-- The local coordinate `floor(world) - chunk * CHUNK_SIZE` of a world coordinate. -/
def localCoord (world : Rat) : Int := floor world - chunkCoord world * CHUNK_SIZE

/-- Function `getBlockFromScreenPos`; `none` is `null` (or an empty slot). -/
def getBlockFromScreenPos (w : World) (screenX screenY : Rat) : Option Block :=
  let worldX := screenToWorld w screenX width w.camX
  let worldZ := screenToWorld w screenY height w.camZ
  let chunkX := chunkCoord worldX
  let chunkZ := chunkCoord worldZ
  if !chunkIsAlreadyGenerated w.generatedChunks chunkX chunkZ then none
  else
    let localX := localCoord worldX
    let localZ := localCoord worldZ
    match getGeneratedChunk w.generatedChunks chunkX chunkZ with
    | none => none
    | some chunk => chunk.blockAt localX localZ

/-! ## Vocabulary of the properties -/

/-- The decision tree as section 4.3 of the specification words it, with
`seaLevel = 150` and `elevationMax = 300`. -/
def specClassify (y t r : Rat) : Biome :=
  if y < 150 then
    if y < 150 / 2 then Biome.DEEPOCEAN
    else if t < 33 / 100 then Biome.COLDOCEAN
    else if t < 66 / 100 then Biome.OCEAN
    else Biome.WARMOCEAN
  else if y < 300 / (14 / 10) then
    if t < 25 / 100 then (if r < 25 / 100 then Biome.TUNDRA else Biome.TAIGA)
    else if t < 5 / 10 then (if r < 25 / 100 then Biome.PLAINS else Biome.SHRUBLAND)
    else if r < 25 / 100 then Biome.DESERT
    else if r < 5 / 10 then Biome.SAVANNA
    else if r < 75 / 100 then Biome.FOREST
    else Biome.JUNGLE
  else if (t > 5 / 10 ∧ y > 300 / (12 / 10)) ∨ (t ≤ 5 / 10 ∧ y > 300 / (135 / 100)) then
    Biome.SNOWYPEAKS
  else Biome.MOUNTAINS

/-- The chunk coordinates `(x, z)` of a list of chunks, in list order. -/
def coords (chunks : List Chunk) : List (Int × Int) :=
  chunks.map fun c => (c.x, c.z)

/-- The coordinates of the `(2R+1) x (2R+1)` window around `(cx, cz)`, row by row. -/
def windowCoords (r cx cz : Int) : List (Int × Int) :=
  (offsets r).flatMap fun dz => (offsets r).map fun dx => (cx + dx, cz + dz)

/-- The column `x = col` of the window of radius `r` whose rows are centred at `cz`. -/
def columnCoords (r col cz : Int) : List (Int × Int) :=
  (offsets r).map fun zOff => (col, cz + zOff)

/-- The row `z = row` of the window of radius `r` whose columns are centred at `cx`. -/
def rowCoords (r cx row : Int) : List (Int × Int) :=
  (offsets r).map fun xOff => (cx + xOff, row)

/-- The visible set is exactly the window of radius `r` around `(cx, cz)`: its chunk
coordinates are the pairs within distance `r` of the centre on both axes, none twice. -/
def IsWindow (r cx cz : Int) (visibleChunks : List Chunk) : Prop :=
  (∀ x z : Int, (x, z) ∈ coords visibleChunks ↔ |x - cx| ≤ r ∧ |z - cz| ≤ r) ∧
    (coords visibleChunks).Nodup

/-- Two states agree on every global except the two chunk lists. -/
def SameFrame (w w1 : World) : Prop :=
  w1.camX = w.camX ∧ w1.camZ = w.camZ ∧ w1.prevCamChunkX2 = w.prevCamChunkX2 ∧
    w1.prevCamChunkZ2 = w.prevCamChunkZ2 ∧ w1.camZoom = w.camZoom ∧
    w1.renderDistance = w.renderDistance ∧ w1.worldGenScale = w.worldGenScale ∧
    w1.worldGenType = w.worldGenType ∧
    w1.getVisibleChunksNextFrame = w.getVisibleChunksNextFrame ∧
    w1.visibleSize = w.visibleSize

/-- A frame: the camera is at `(camX, camZ)` when `getVisibleChunks` runs. -/
def frame (p5 : P5) (w : World) (cam : Rat × Rat) : World :=
  getVisibleChunks p5 { w with camX := cam.1, camZ := cam.2 }

/-- A sequence of frames, one `getVisibleChunks` call per camera position. -/
def frames (p5 : P5) (w : World) (cams : List (Rat × Rat)) : World :=
  cams.foldl (frame p5) w

/-- The calls that touch the chunk store or the visible set, and camera movement. -/
inductive Op where
  | setCam (camX camZ : Rat)
  | getVisibleChunks
  | getVisibleChunksO
  | changeRenderDistance (change : Int)

/-- The effect of one call on the globals. -/
def Op.apply (p5 : P5) (w : World) : Op → World
  | Op.setCam camX camZ => { w with camX := camX, camZ := camZ }
  | Op.getVisibleChunks => BiomeGen.getVisibleChunks p5 w
  | Op.getVisibleChunksO => BiomeGen.getVisibleChunksO p5 w
  | Op.changeRenderDistance change => BiomeGen.changeRenderDistance w change

/-- A sequence of calls, applied from left to right. -/
def runOps (p5 : P5) (w : World) (ops : List Op) : World :=
  ops.foldl (fun w op => op.apply p5 w) w

/-- The get-or-generate step applied `n` times to the same coordinates: the chunks it
returned, in order, and the final globals. -/
def getOrGenerateTimes (p5 : P5) (chunkX chunkZ : Int) : Nat → World → List Chunk × World
  | 0, w => ([], w)
  | n + 1, w =>
    let r := getOrGenerate p5 w chunkX chunkZ
    let rest := getOrGenerateTimes p5 chunkX chunkZ n r.2
    (r.1 :: rest.1, rest.2)

/-- A noise field that is constant, with the other library functions constant too. -/
def constP5 : P5 :=
  { noise := fun _ _ => 1 / 2, atan2 := fun _ _ => 0, cos := fun _ => 1, sin := fun _ => 0,
    dist := fun _ _ _ _ => 0 }

/-- A cell at elevation 100 with temperature 0.2. -/
def cell100 : Block :=
  { x := 0, z := 0, y := 100, temp := 2 / 10, rainfall := 5 / 10, biome := none }

/-- A cell at elevation 50. -/
def cell50 : Block :=
  { x := 0, z := 0, y := 50, temp := 2 / 10, rainfall := 5 / 10, biome := none }

/-- The initial globals with the generation mode set to Flat. -/
def flatWorld : World := { World.init with worldGenType := "Flat" }

/-- The Flat world after `generateChunk(0, 0)`. -/
def storedWorld : World := (generateChunk constP5 flatWorld 0 0).2

/-- The nine Flat chunks of the window of radius 1 around chunk `(0, 0)`. -/
def unitChunks : List Chunk :=
  (windowCoords 1 0 0).map fun p =>
    { x := p.1, z := p.2,
      blocks := mapBlocks (fun _ _ block =>
        { block with y := SEA_LEVEL, temp := 5 / 10, rainfall := 5 / 10,
                     biome := some Biome.PLAINS })
        (createBlocks (p.1 * CHUNK_SIZE) (p.2 * CHUNK_SIZE)) }

/-- Render distance 1, the window around the tracked centre `(0, 0)` visible, and the
camera at world position `(16, 0)`, that is in chunk `(1, 0)`. -/
def unitWorld : World :=
  { World.init with camX := 16, camZ := 0, renderDistance := 1, worldGenType := "Flat",
                    generatedChunks := unitChunks, visibleChunks := unitChunks }

/-- One iteration of the `while` loop of `getVisibleChunks`: a unit step along x (the
branch `if(dx !== 0)`) or along z (the branch `else if(dz !== 0)`), with its sign. -/
inductive Step where
  | x (s : Int)
  | z (s : Int)
  deriving DecidableEq

/-- The effect of one iteration on the globals. -/
def Step.apply (p5 : P5) (w : World) : Step → World
  | Step.x s => stepX p5 w s
  | Step.z s => stepZ p5 w s

/-- The `while` loop of `getVisibleChunks` (lines 535-585) again, keeping a log of the
iterations it performs, first iteration first. -/
def reconcileLog (p5 : P5) (w : World) (dx dz : Int) : World × List Step :=
  if dx ≠ 0 then
    let sX : Int := if dx > 0 then 1 else -1
    let r := reconcileLog p5 (stepX p5 w sX) (dx - sX) dz
    (r.1, Step.x sX :: r.2)
  else if dz ≠ 0 then
    let sZ : Int := if dz > 0 then 1 else -1
    let r := reconcileLog p5 (stepZ p5 w sZ) dx (dz - sZ)
    (r.1, Step.z sZ :: r.2)
  else (w, [])
termination_by dx.natAbs + dz.natAbs
decreasing_by
  all_goals simp_wf
  · split <;> omega
  · split <;> omega

/-- The value of `oceanElev` for a Zenith cell (lines 352-356). -/
def zenithOceanElev (p5 : P5) (worldGenScale : Rat) (chunkWorldX chunkWorldZ : Int)
    (xi zi : Nat) : Rat :=
  map (sampleNoise p5 chunkWorldX chunkWorldZ xi zi 56852 27384 worldGenScale) 0 1
    CHUNK_HEIGHT_MIN (SEA_LEVEL / 2)

/-- The value of `islandEdgeVariationNoise` for a Zenith cell (lines 358-359). -/
def zenithEdgeNoise (p5 : P5) (chunkWorldX chunkWorldZ : Int) (xi zi : Nat) : Rat :=
  p5.noise
    (p5.cos (p5.atan2 (((chunkWorldZ + zi : Int) : Rat) - 0)
      (((chunkWorldX + xi : Int) : Rat) - 0)) + 1000)
    (p5.sin (p5.atan2 (((chunkWorldZ + zi : Int) : Rat) - 0)
      (((chunkWorldX + xi : Int) : Rat) - 0)) + 1000)

/-- The value of `variedIslandRadius` for a Zenith cell (lines 360-361). -/
def zenithVariedRadius (p5 : P5) (chunkWorldX chunkWorldZ : Int) (xi zi : Nat) : Rat :=
  500 + map (zenithEdgeNoise p5 chunkWorldX chunkWorldZ xi zi) 0 1 (-1) 1 * 500 / 4

/-- The value of `distFromIslandCenter` for a Zenith cell (line 362). -/
def zenithDistFromCenter (p5 : P5) (chunkWorldX chunkWorldZ : Int) (xi zi : Nat) : Rat :=
  p5.dist ((chunkWorldX + xi : Int) : Rat) ((chunkWorldZ + zi : Int) : Rat) 0 0

/-- The initial globals with the generation mode set to Zenith. -/
def zenithWorld : World := { World.init with worldGenType := "Zenith" }

/-- A Zenith cell whose elevation comes from noise 1/2, radius 500 and distance 600. -/
def zenithCell : Block :=
  { x := 600, z := 0, y := zenithElevation (map (1 / 2) 0 1 0 75) 500 600, temp := 2 / 10,
    rainfall := 5 / 10, biome := none }

/-- A Zenith cell whose elevation comes from noise 1/2, radius 500 and distance 100. -/
def zenithInnerCell : Block :=
  { x := 100, z := 0, y := zenithElevation (map (1 / 2) 0 1 0 75) 500 100, temp := 2 / 10,
    rainfall := 5 / 10, biome := none }

/-- Library functions with constant noise 1/2 (so the wobbled radius is 500) and, for
`dist`, the sum of the coordinate differences in absolute value, which is the Euclidean
distance for two points on a common axis. -/
def axisP5 : P5 :=
  { noise := fun _ _ => 1 / 2, atan2 := fun _ _ => 0, cos := fun _ => 1, sin := fun _ => 0,
    dist := fun x1 y1 x2 y2 => |x1 - x2| + |y1 - y2| }

/-! ## Biome classification -/

theorem landBiome_ne_none (temp rainfall : Rat) : landBiome temp rainfall ≠ none := by
  unfold landBiome
  split_ifs <;> simp

theorem defaultBiomeCell_biome (b : Block) :
    (defaultBiomeCell b).biome = some (specClassify b.y b.temp b.rainfall) := by
  simp only [defaultBiomeCell, specClassify, landBiome, SEA_LEVEL, CHUNK_HEIGHT_MAX]
  split_ifs <;>
    first
    | rfl
    | (exfalso; simp_all; done)
    | (exfalso; simp_all
       rcases ‹_ ∨ _› with h | h <;> linarith)

theorem zenithBiomeCell_eq_defaultBiomeCell (b : Block) :
    zenithBiomeCell b = defaultBiomeCell b := rfl

theorem specClassify_ne_NULL (y t r : Rat) : specClassify y t r ≠ Biome.NULL := by
  unfold specClassify
  split_ifs <;> simp

/-! ## The block grid of a generated chunk -/

theorem gridAt_mapBlocks (f : Nat → Nat → Block → Block) (g : List (List Block))
    (xi zi : Nat) : gridAt (mapBlocks f g) xi zi = (gridAt g xi zi).map (f xi zi) := by
  unfold gridAt mapBlocks
  rw [List.getElem?_map, List.getElem?_enum]
  cases hcol : g[xi]? with
  | none => simp
  | some col =>
    simp only [Option.map_some']
    rw [List.getElem?_map, List.getElem?_enum]
    cases col[zi]? <;> simp

theorem gridAt_createBlocks (chunkWorldX chunkWorldZ : Int) (xi zi : Nat)
    (hx : xi < CHUNK_SIZE) (hz : zi < CHUNK_SIZE) :
    gridAt (createBlocks chunkWorldX chunkWorldZ) xi zi =
      some { x := chunkWorldX + xi, z := chunkWorldZ + zi, y := 0, temp := 0, rainfall := 0,
             biome := none } := by
  unfold gridAt createBlocks
  rw [List.getElem?_map, List.getElem?_range hx]
  simp only [Option.map_some']
  rw [List.getElem?_map, List.getElem?_range hz]
  rfl

theorem defaultBiomeCell_x (b : Block) : (defaultBiomeCell b).x = b.x := by
  simp only [defaultBiomeCell]
  split_ifs <;> rfl

theorem defaultBiomeCell_z (b : Block) : (defaultBiomeCell b).z = b.z := by
  simp only [defaultBiomeCell]
  split_ifs <;> rfl

theorem defaultBiomeCell_y (b : Block) : (defaultBiomeCell b).y = b.y := by
  simp only [defaultBiomeCell]
  split_ifs <;> rfl

theorem defaultBiomeCell_temp (b : Block) : (defaultBiomeCell b).temp = b.temp := by
  simp only [defaultBiomeCell]
  split_ifs <;> rfl

theorem defaultBiomeCell_rainfall (b : Block) :
    (defaultBiomeCell b).rainfall = b.rainfall := by
  simp only [defaultBiomeCell]
  split_ifs <;> rfl

/-- Every cell of a built chunk holds a block carrying its own world coordinates. -/
theorem buildChunk_gridAt (p5 : P5) (scale : Rat) (type : String) (chunkX chunkZ : Int)
    (xi zi : Nat) (hx : xi < CHUNK_SIZE) (hz : zi < CHUNK_SIZE) :
    ∃ b, gridAt (buildChunk p5 scale type chunkX chunkZ).blocks xi zi = some b ∧
      b.x = chunkX * CHUNK_SIZE + xi ∧ b.z = chunkZ * CHUNK_SIZE + zi := by
  unfold buildChunk
  simp only
  split_ifs
  · simp [gridAt_mapBlocks, gridAt_createBlocks _ _ xi zi hx hz, defaultBiomeCell_x,
      defaultBiomeCell_z]
  · simp [gridAt_mapBlocks, gridAt_createBlocks _ _ xi zi hx hz]
  · simp [gridAt_mapBlocks, gridAt_createBlocks _ _ xi zi hx hz,
      zenithBiomeCell_eq_defaultBiomeCell, defaultBiomeCell_x, defaultBiomeCell_z,
      zenithHeightCell]
  · simp [gridAt_createBlocks _ _ xi zi hx hz]

/-- In Default mode the biome of every cell is the tree applied to the cell's own values. -/
theorem buildChunk_default_gridAt (p5 : P5) (scale : Rat) (chunkX chunkZ : Int)
    (xi zi : Nat) (hx : xi < CHUNK_SIZE) (hz : zi < CHUNK_SIZE) :
    ∃ b, gridAt (buildChunk p5 scale "Default" chunkX chunkZ).blocks xi zi = some b ∧
      b.biome = some (specClassify b.y b.temp b.rainfall) := by
  unfold buildChunk
  simp only [if_true]
  simp only [gridAt_mapBlocks, gridAt_createBlocks _ _ xi zi hx hz, Option.map_some']
  refine ⟨_, rfl, ?_⟩
  rw [defaultBiomeCell_biome, defaultBiomeCell_y, defaultBiomeCell_temp,
    defaultBiomeCell_rainfall]

/-- In Flat mode every cell holds the fixed values. -/
theorem buildChunk_flat_gridAt (p5 : P5) (scale : Rat) (chunkX chunkZ : Int)
    (xi zi : Nat) (hx : xi < CHUNK_SIZE) (hz : zi < CHUNK_SIZE) :
    ∃ b, gridAt (buildChunk p5 scale "Flat" chunkX chunkZ).blocks xi zi = some b ∧
      b.y = SEA_LEVEL ∧ b.temp = 5 / 10 ∧ b.rainfall = 5 / 10 ∧
      b.biome = some Biome.PLAINS := by
  unfold buildChunk
  have h : ¬ ("Flat" = "Default") := by decide
  simp only [if_neg h, if_true]
  simp only [gridAt_mapBlocks, gridAt_createBlocks _ _ xi zi hx hz, Option.map_some']
  exact ⟨_, rfl, rfl, rfl, rfl, rfl⟩

theorem blockAt_natCast (c : Chunk) (xi zi : Nat) :
    c.blockAt xi zi = gridAt c.blocks xi zi := by
  simp [Chunk.blockAt]

/-! ## Coordinate conversion -/

theorem localCoord_bounds (world : Rat) :
    0 ≤ localCoord world ∧ localCoord world ≤ 15 ∧
      chunkCoord world * CHUNK_SIZE + localCoord world = floor world := by
  have h16 : (0 : Rat) < 16 := by norm_num
  have hlo : ((chunkCoord world : Int) : Rat) ≤ world / 16 := by
    simpa [chunkCoord, floor, CHUNK_SIZE] using Int.floor_le (world / 16)
  have hhi : world / 16 < ((chunkCoord world : Int) : Rat) + 1 := by
    simp [chunkCoord, floor, CHUNK_SIZE]
  have h1 : chunkCoord world * 16 ≤ floor world := by
    unfold floor
    rw [Int.le_floor]
    push_cast
    rw [le_div_iff₀ h16] at hlo
    exact hlo
  have h2 : floor world < chunkCoord world * 16 + 16 := by
    unfold floor
    rw [Int.floor_lt]
    push_cast
    rw [div_lt_iff₀ h16] at hhi
    linarith
  simp only [localCoord, CHUNK_SIZE, Nat.cast_ofNat]
  omega

/-! ## The chunk store -/

theorem getGeneratedChunk_some {gs : List Chunk} {x z : Int} {c : Chunk}
    (h : getGeneratedChunk gs x z = some c) : c ∈ gs ∧ c.x = x ∧ c.z = z := by
  unfold getGeneratedChunk at h
  have h1 := List.find?_some h
  have h2 := List.mem_of_find?_eq_some h
  simp only [decide_eq_true_eq] at h1
  exact ⟨h2, h1.1, h1.2⟩

theorem getGeneratedChunk_none {gs : List Chunk} {x z : Int} :
    getGeneratedChunk gs x z = none ↔ (x, z) ∉ coords gs := by
  unfold getGeneratedChunk coords
  rw [List.find?_eq_none]
  simp only [decide_eq_true_eq, List.mem_map, Prod.mk.injEq, not_exists, not_and]

theorem buildChunk_x (p5 : P5) (scale : Rat) (type : String) (x z : Int) :
    (buildChunk p5 scale type x z).x = x := rfl

theorem buildChunk_z (p5 : P5) (scale : Rat) (type : String) (x z : Int) :
    (buildChunk p5 scale type x z).z = z := rfl

theorem getOrGenerate_fst_coords (p5 : P5) (w : World) (x z : Int) :
    (getOrGenerate p5 w x z).1.x = x ∧ (getOrGenerate p5 w x z).1.z = z := by
  unfold getOrGenerate
  split
  · next c h => exact (getGeneratedChunk_some h).2
  · exact ⟨rfl, rfl⟩

theorem getOrGenerate_snd (p5 : P5) (w : World) (x z : Int) :
    (getOrGenerate p5 w x z).2 =
      { w with generatedChunks := (getOrGenerate p5 w x z).2.generatedChunks } := by
  unfold getOrGenerate
  split
  · rfl
  · rfl

theorem pushVisible_eq (p5 : P5) (w : World) (x z : Int) :
    pushVisible p5 w x z =
      { w with generatedChunks := (getOrGenerate p5 w x z).2.generatedChunks,
               visibleChunks := w.visibleChunks ++ [(getOrGenerate p5 w x z).1] } := by
  unfold pushVisible
  simp only
  rw [getOrGenerate_snd]

theorem SameFrame.refl (w : World) : SameFrame w w :=
  ⟨rfl, rfl, rfl, rfl, rfl, rfl, rfl, rfl, rfl, rfl⟩

theorem SameFrame.trans {a b c : World} (h1 : SameFrame a b) (h2 : SameFrame b c) :
    SameFrame a c := by
  obtain ⟨a1, a2, a3, a4, a5, a6, a7, a8, a9, a10⟩ := h1
  obtain ⟨b1, b2, b3, b4, b5, b6, b7, b8, b9, b10⟩ := h2
  exact ⟨b1.trans a1, b2.trans a2, b3.trans a3, b4.trans a4, b5.trans a5, b6.trans a6,
    b7.trans a7, b8.trans a8, b9.trans a9, b10.trans a10⟩

theorem pushVisible_sameFrame (p5 : P5) (w : World) (x z : Int) :
    SameFrame w (pushVisible p5 w x z) := by
  rw [pushVisible_eq]
  exact ⟨rfl, rfl, rfl, rfl, rfl, rfl, rfl, rfl, rfl, rfl⟩

theorem pushVisible_visibleChunks (p5 : P5) (w : World) (x z : Int) :
    (pushVisible p5 w x z).visibleChunks = w.visibleChunks ++ [(getOrGenerate p5 w x z).1] := by
  rw [pushVisible_eq]

theorem pushVisible_generatedChunks (p5 : P5) (w : World) (x z : Int) :
    (pushVisible p5 w x z).generatedChunks = (getOrGenerate p5 w x z).2.generatedChunks := by
  rw [pushVisible_eq]

theorem coords_append (a b : List Chunk) : coords (a ++ b) = coords a ++ coords b := by
  simp [coords]

theorem coords_pushVisible (p5 : P5) (w : World) (x z : Int) :
    coords (pushVisible p5 w x z).visibleChunks = coords w.visibleChunks ++ [(x, z)] := by
  rw [pushVisible_visibleChunks, coords_append]
  simp [coords, getOrGenerate_fst_coords]

/-! ## Removal from the visible set -/

theorem erase_find?_eq_eraseP (p : Chunk → Bool) (vs : List Chunk) (c : Chunk)
    (hfind : vs.find? p = some c) : vs.erase c = vs.eraseP p := by
  induction vs with
  | nil => simp at hfind
  | cons v vs ih =>
    by_cases hv : p v = true
    · rw [List.find?_cons_of_pos _ hv] at hfind
      injection hfind with hfind
      subst hfind
      rw [List.eraseP_cons_of_pos hv, List.erase_cons_head]
    · rw [List.find?_cons_of_neg _ hv] at hfind
      have hc : p c = true := List.find?_some hfind
      have hne : v ≠ c := fun h => hv (h ▸ hc)
      rw [List.eraseP_cons_of_neg hv, List.erase_cons_tail (by simpa using hne), ih hfind]

theorem removeVisible_eq_eraseP (vs : List Chunk) (x z : Int) :
    removeVisible vs x z = vs.eraseP fun c => decide (c.x = x ∧ c.z = z) := by
  unfold removeVisible getVisibleChunk
  cases hfind : vs.find? (fun c => decide (c.x = x ∧ c.z = z)) with
  | none =>
    simp only
    rw [List.eraseP_of_forall_not]
    intro c hc
    have := List.find?_eq_none.1 hfind c hc
    simpa using this
  | some c =>
    simp only
    rw [List.eraseIdx_indexOf_eq_erase]
    exact erase_find?_eq_eraseP _ vs c hfind

theorem eraseP_append_of_forall_not (p : Chunk → Bool) (a b : List Chunk)
    (hb : ∀ c ∈ b, ¬ p c = true) : (a ++ b).eraseP p = a.eraseP p ++ b := by
  by_cases h : ∃ c ∈ a, p c = true
  · obtain ⟨c, hc, hpc⟩ := h
    exact List.eraseP_append_left hpc b hc
  · have h1 : ∀ c ∈ a, ¬ p c = true := fun c hc hpc => h ⟨c, hc, hpc⟩
    rw [List.eraseP_append_right _ h1, List.eraseP_of_forall_not hb,
      List.eraseP_of_forall_not h1]

theorem coords_eraseP (vs : List Chunk) (x z : Int) :
    coords (vs.eraseP fun c => decide (c.x = x ∧ c.z = z)) = (coords vs).erase (x, z) := by
  induction vs with
  | nil => rfl
  | cons v vs ih =>
    by_cases hv : v.x = x ∧ v.z = z
    · rw [List.eraseP_cons_of_pos (by simpa using hv)]
      have : (v.x, v.z) = (x, z) := by rw [hv.1, hv.2]
      simp only [coords, List.map_cons, this, List.erase_cons_head]
    · rw [List.eraseP_cons_of_neg (by simpa using hv)]
      have hne : ¬ ((v.x, v.z) = (x, z)) := by
        intro h
        injection h with h1 h2
        exact hv ⟨h1, h2⟩
      simp only [coords, List.map_cons] at ih ⊢
      rw [List.erase_cons_tail (by simpa using hne), ih]

theorem eraseP_eq_filter_of_nodup (vs : List Chunk) (x z : Int) (hnd : (coords vs).Nodup) :
    (vs.eraseP fun c => decide (c.x = x ∧ c.z = z)) =
      vs.filter fun c => decide ((c.x, c.z) ≠ (x, z)) := by
  induction vs with
  | nil => rfl
  | cons v vs ih =>
    simp only [coords, List.map_cons, List.nodup_cons] at hnd
    by_cases hv : v.x = x ∧ v.z = z
    · rw [List.eraseP_cons_of_pos (by simpa using hv)]
      have hv1 : (v.x, v.z) = (x, z) := by rw [hv.1, hv.2]
      simp only [List.filter_cons]
      rw [if_neg (by simp [hv1])]
      symm
      rw [List.filter_eq_self]
      intro c hc
      simp only [ne_eq, decide_not, Bool.not_eq_true', decide_eq_false_iff_not]
      intro hcxz
      apply hnd.1
      rw [hv1, ← hcxz]
      exact List.mem_map_of_mem (fun c => (c.x, c.z)) hc
    · rw [List.eraseP_cons_of_neg (by simpa using hv)]
      have hne : (v.x, v.z) ≠ (x, z) := by
        intro h
        injection h with h1 h2
        exact hv ⟨h1, h2⟩
      simp only [List.filter_cons]
      rw [if_pos (decide_eq_true hne), ih hnd.2]

/-! ## Window arithmetic -/

theorem mem_offsets (r i : Int) : i ∈ offsets r ↔ -r ≤ i ∧ i ≤ r := by
  unfold offsets
  simp only [List.mem_map, List.mem_range]
  constructor
  · rintro ⟨n, hn, rfl⟩
    omega
  · intro h
    refine ⟨(i + r).toNat, ?_, ?_⟩ <;> omega

theorem nodup_offsets (r : Int) : (offsets r).Nodup := by
  unfold offsets
  apply List.Nodup.map _ (List.nodup_range _)
  intro a b h
  simpa using h

theorem length_offsets (r : Int) : (offsets r).length = (2 * r + 1).toNat := by
  simp [offsets]

theorem abs_sub_le_iff_offsets (r x c : Int) : |x - c| ≤ r ↔ ∃ d ∈ offsets r, x = c + d := by
  rw [abs_le]
  constructor
  · intro h
    exact ⟨x - c, (mem_offsets r _).2 h, by omega⟩
  · rintro ⟨d, hd, rfl⟩
    have := (mem_offsets r d).1 hd
    constructor <;> omega

theorem mem_windowCoords (r cx cz x z : Int) :
    (x, z) ∈ windowCoords r cx cz ↔ |x - cx| ≤ r ∧ |z - cz| ≤ r := by
  rw [abs_sub_le_iff_offsets, abs_sub_le_iff_offsets]
  unfold windowCoords
  simp only [List.mem_flatMap, List.mem_map, Prod.mk.injEq]
  constructor
  · rintro ⟨dz, hdz, dx, hdx, h1, h2⟩
    exact ⟨⟨dx, hdx, h1.symm⟩, ⟨dz, hdz, h2.symm⟩⟩
  · rintro ⟨⟨dx, hdx, h1⟩, ⟨dz, hdz, h2⟩⟩
    exact ⟨dz, hdz, dx, hdx, h1.symm, h2.symm⟩

theorem nodup_windowCoords (r cx cz : Int) : (windowCoords r cx cz).Nodup := by
  unfold windowCoords
  rw [List.nodup_flatMap]
  constructor
  · intro dz _
    apply List.Nodup.map _ (nodup_offsets r)
    intro a b h
    simpa using h
  · apply List.Pairwise.imp _ (nodup_offsets r)
    intro a b hab
    intro p hpa hpb
    simp only [List.mem_map] at hpa hpb
    obtain ⟨d1, _, rfl⟩ := hpa
    obtain ⟨d2, _, h⟩ := hpb
    simp only [Prod.mk.injEq] at h
    omega

theorem length_windowCoords (r cx cz : Int) :
    (windowCoords r cx cz).length = (2 * r + 1).toNat * (2 * r + 1).toNat := by
  unfold windowCoords
  rw [List.length_flatMap]
  have h : (List.length ∘ fun dz : Int => List.map (fun dx => (cx + dx, cz + dz)) (offsets r))
      = fun _ => (offsets r).length := by
    funext dz
    simp
  rw [h, List.map_const', List.sum_replicate, length_offsets]
  simp

theorem mem_columnCoords (r col cz x z : Int) :
    (x, z) ∈ columnCoords r col cz ↔ x = col ∧ |z - cz| ≤ r := by
  rw [abs_sub_le_iff_offsets]
  unfold columnCoords
  simp only [List.mem_map, Prod.mk.injEq]
  constructor
  · rintro ⟨d, hd, h1, h2⟩
    exact ⟨h1.symm, d, hd, h2.symm⟩
  · rintro ⟨h1, d, hd, h2⟩
    exact ⟨d, hd, h1.symm, h2.symm⟩

theorem nodup_columnCoords (r col cz : Int) : (columnCoords r col cz).Nodup := by
  unfold columnCoords
  apply List.Nodup.map _ (nodup_offsets r)
  intro a b h
  simpa using h

theorem mem_rowCoords (r cx row x z : Int) :
    (x, z) ∈ rowCoords r cx row ↔ |x - cx| ≤ r ∧ z = row := by
  rw [abs_sub_le_iff_offsets]
  unfold rowCoords
  simp only [List.mem_map, Prod.mk.injEq]
  constructor
  · rintro ⟨d, hd, h1, h2⟩
    exact ⟨⟨d, hd, h1.symm⟩, h2.symm⟩
  · rintro ⟨⟨d, hd, h1⟩, h2⟩
    exact ⟨d, hd, h1.symm, h2.symm⟩

theorem nodup_rowCoords (r cx row : Int) : (rowCoords r cx row).Nodup := by
  unfold rowCoords
  apply List.Nodup.map _ (nodup_offsets r)
  intro a b h
  simpa using h

theorem length_columnCoords (r col cz : Int) :
    (columnCoords r col cz).length = (2 * r + 1).toNat := by
  simp [columnCoords, length_offsets]

theorem length_rowCoords (r cx row : Int) :
    (rowCoords r cx row).length = (2 * r + 1).toNat := by
  simp [rowCoords, length_offsets]

theorem isWindow_iff_perm (r cx cz : Int) (vs : List Chunk) :
    IsWindow r cx cz vs ↔ (coords vs).Perm (windowCoords r cx cz) := by
  constructor
  · rintro ⟨hmem, hnd⟩
    rw [List.perm_ext_iff_of_nodup hnd (nodup_windowCoords r cx cz)]
    rintro ⟨x, z⟩
    rw [hmem, mem_windowCoords]
  · intro h
    refine ⟨fun x z => ?_, h.nodup_iff.2 (nodup_windowCoords r cx cz)⟩
    rw [h.mem_iff, mem_windowCoords]

/-! ## Loops over the visible set -/

theorem foldl_congr_inv {α : Type} (I : World → Prop) (f g : World → α → World)
    (hfg : ∀ w a, I w → f w a = g w a) (hI : ∀ w a, I w → I (g w a)) (l : List α)
    (w : World) (h : I w) : l.foldl f w = l.foldl g w := by
  induction l generalizing w with
  | nil => rfl
  | cons a l ih =>
    simp only [List.foldl_cons]
    rw [hfg w a h]
    exact ih _ (hI w a h)

theorem foldl_pushVisible (p5 : P5) (g : Int → Int × Int) (l : List Int) (w : World) :
    SameFrame w (l.foldl (fun w d => pushVisible p5 w (g d).1 (g d).2) w) ∧
      coords (l.foldl (fun w d => pushVisible p5 w (g d).1 (g d).2) w).visibleChunks =
        coords w.visibleChunks ++ l.map g := by
  induction l generalizing w with
  | nil => exact ⟨SameFrame.refl w, by simp⟩
  | cons d l ih =>
    simp only [List.foldl_cons, List.map_cons]
    obtain ⟨h1, h2⟩ := ih (pushVisible p5 w (g d).1 (g d).2)
    refine ⟨(pushVisible_sameFrame p5 w _ _).trans h1, ?_⟩
    rw [h2, coords_pushVisible]
    simp

theorem fillVisible_spec (p5 : P5) (w : World) (cx cz : Int) :
    SameFrame w (fillVisible p5 w cx cz) ∧
      coords (fillVisible p5 w cx cz).visibleChunks =
        coords w.visibleChunks ++ windowCoords w.renderDistance cx cz := by
  unfold fillVisible windowCoords
  generalize hr : w.renderDistance = r
  have key : ∀ (l : List Int) (w : World), w.renderDistance = r →
      SameFrame w (l.foldl (fun w dz => (offsets w.renderDistance).foldl (fun w dx =>
          pushVisible p5 w (cx + dx) (cz + dz)) w) w) ∧
        coords (l.foldl (fun w dz => (offsets w.renderDistance).foldl (fun w dx =>
          pushVisible p5 w (cx + dx) (cz + dz)) w) w).visibleChunks =
          coords w.visibleChunks ++
            l.flatMap fun dz => (offsets r).map fun dx => (cx + dx, cz + dz) := by
    intro l
    induction l with
    | nil => intro w _; exact ⟨SameFrame.refl w, by simp⟩
    | cons dz l ih =>
      intro w hw
      simp only [List.foldl_cons, List.flatMap_cons]
      obtain ⟨h1, h2⟩ := foldl_pushVisible p5 (fun dx => (cx + dx, cz + dz)) (offsets r) w
      simp only at h1 h2
      rw [hw]
      obtain ⟨h3, h4⟩ := ih _ (h1.2.2.2.2.2.1.trans hw)
      refine ⟨h1.trans h3, ?_⟩
      rw [h4, h2, List.append_assoc]
  exact key (offsets r) w hr

/-- The loop `for(off ...){ remove at rem(off); push get-or-generate at add(off) }`. -/
theorem foldl_removeAdd (p5 : P5) (rem add : Int → Int × Int)
    (l : List Int) (w : World) (a b : List Chunk) (hvis : w.visibleChunks = a ++ b)
    (hdisj : ∀ d d1, rem d ≠ add d1)
    (hb : ∀ c ∈ b, ∀ d, (c.x, c.z) ≠ rem d) :
    SameFrame w (l.foldl (fun w d => pushVisible p5
        { w with visibleChunks := removeVisible w.visibleChunks (rem d).1 (rem d).2 }
        (add d).1 (add d).2) w) ∧
      ∃ added, (l.foldl (fun w d => pushVisible p5
        { w with visibleChunks := removeVisible w.visibleChunks (rem d).1 (rem d).2 }
        (add d).1 (add d).2) w).visibleChunks =
          l.foldl (fun vs d => vs.eraseP fun c => decide (c.x = (rem d).1 ∧ c.z = (rem d).2)) a
            ++ b ++ added ∧ coords added = l.map add := by
  induction l generalizing w a b with
  | nil => exact ⟨SameFrame.refl w, [], by simpa using hvis, rfl⟩
  | cons d l ih =>
    simp only [List.foldl_cons, List.map_cons]
    have hstep : (pushVisible p5
        { w with visibleChunks := removeVisible w.visibleChunks (rem d).1 (rem d).2 }
        (add d).1 (add d).2).visibleChunks =
        (a.eraseP fun c => decide (c.x = (rem d).1 ∧ c.z = (rem d).2)) ++
          (b ++ [(getOrGenerate p5
            { w with visibleChunks := removeVisible w.visibleChunks (rem d).1 (rem d).2 }
            (add d).1 (add d).2).1]) := by
      rw [pushVisible_visibleChunks]
      simp only
      rw [removeVisible_eq_eraseP, hvis, eraseP_append_of_forall_not, List.append_assoc]
      intro c hc
      simp only [decide_eq_true_eq]
      intro hcx
      exact hb c hc d (by rw [hcx.1, hcx.2])
    obtain ⟨h1, added, h2, h3⟩ := ih _ _ _ hstep (by
      intro c hc d1
      rcases List.mem_append.1 hc with hc | hc
      · exact hb c hc d1
      · simp only [List.mem_singleton] at hc
        subst hc
        rw [(getOrGenerate_fst_coords p5 _ _ _).1, (getOrGenerate_fst_coords p5 _ _ _).2]
        exact fun h => hdisj d1 d h.symm)
    refine ⟨SameFrame.trans ?_ h1, ?_⟩
    · exact SameFrame.trans ⟨rfl, rfl, rfl, rfl, rfl, rfl, rfl, rfl, rfl, rfl⟩
        (pushVisible_sameFrame p5 _ _ _)
    · refine ⟨(getOrGenerate p5
            { w with visibleChunks := removeVisible w.visibleChunks (rem d).1 (rem d).2 }
            (add d).1 (add d).2).1 :: added, ?_, ?_⟩
      · rw [h2]
        simp
      · simp only [coords, List.map_cons] at h3 ⊢
        rw [h3, (getOrGenerate_fst_coords p5 _ _ _).1, (getOrGenerate_fst_coords p5 _ _ _).2]

theorem coords_foldl_eraseP (rem : Int → Int × Int) (l : List Int) (a : List Chunk) :
    coords (l.foldl (fun vs d => vs.eraseP fun c => decide (c.x = (rem d).1 ∧ c.z = (rem d).2)) a)
      = (coords a).diff (l.map rem) := by
  induction l generalizing a with
  | nil => simp
  | cons d l ih =>
    simp only [List.foldl_cons, List.map_cons, List.diff_cons]
    rw [ih, coords_eraseP]

theorem foldl_eraseP_eq_filter (rem : Int → Int × Int) (l : List Int) (a : List Chunk)
    (hnd : (coords a).Nodup) :
    l.foldl (fun vs d => vs.eraseP fun c => decide (c.x = (rem d).1 ∧ c.z = (rem d).2)) a
      = a.filter fun c => decide ((c.x, c.z) ∉ l.map rem) := by
  induction l generalizing a with
  | nil => simp
  | cons d l ih =>
    simp only [List.foldl_cons, List.map_cons]
    rw [eraseP_eq_filter_of_nodup a _ _ hnd, ih, List.filter_filter]
    · apply List.filter_congr
      intro c _
      simp only [List.mem_cons, not_or, Bool.decide_and, Bool.and_comm]
      simp
      exact Bool.and_comm _ _
    · have : List.Sublist
          (coords (a.filter fun c => decide ((c.x, c.z) ≠ ((rem d).1, (rem d).2)))) (coords a) :=
        (List.filter_sublist a).map _
      exact hnd.sublist this

theorem stepX_spec (p5 : P5) (w : World) (s : Int) (hs : s ≠ 0) :
    SameFrame { w with prevCamChunkX2 := w.prevCamChunkX2 + s } (stepX p5 w s) ∧
      ∃ added, (stepX p5 w s).visibleChunks =
        (offsets w.renderDistance).foldl (fun vs d => vs.eraseP fun c =>
          decide (c.x = w.prevCamChunkX2 - w.renderDistance * s ∧ c.z = w.prevCamChunkZ2 + d))
          w.visibleChunks ++ added ∧
        coords added =
          columnCoords w.renderDistance (w.prevCamChunkX2 + w.renderDistance * s + s)
            w.prevCamChunkZ2 := by
  unfold stepX
  simp only
  rw [foldl_congr_inv (SameFrame w) _
    (fun w1 d => pushVisible p5
      { w1 with visibleChunks := (removeVisible w1.visibleChunks
          ((fun d => (w.prevCamChunkX2 - w.renderDistance * s, w.prevCamChunkZ2 + d)) d).1
          ((fun d => (w.prevCamChunkX2 - w.renderDistance * s, w.prevCamChunkZ2 + d)) d).2) }
      ((fun d => (w.prevCamChunkX2 + w.renderDistance * s + s, w.prevCamChunkZ2 + d)) d).1
      ((fun d => (w.prevCamChunkX2 + w.renderDistance * s + s, w.prevCamChunkZ2 + d)) d).2)
    ?_ ?_ _ w (SameFrame.refl w)]
  · obtain ⟨h1, added, h2, h3⟩ := foldl_removeAdd p5
      (fun d => (w.prevCamChunkX2 - w.renderDistance * s, w.prevCamChunkZ2 + d))
      (fun d => (w.prevCamChunkX2 + w.renderDistance * s + s, w.prevCamChunkZ2 + d))
      (offsets w.renderDistance) w w.visibleChunks [] (by simp)
      (by
        intro d d1 h
        simp only [Prod.mk.injEq] at h
        have h1 : w.renderDistance * s * 2 + s = 0 := by omega
        have h2 : s * (2 * w.renderDistance + 1) = 0 := by rw [← h1]; ring
        rcases mul_eq_zero.1 h2 with h3 | h3
        · exact hs h3
        · omega)
      (by simp)
    obtain ⟨a1, a2, a3, a4, a5, a6, a7, a8, a9, a10⟩ := h1
    refine ⟨⟨a1, a2, ?_, a4, a5, a6, a7, a8, a9, a10⟩, added, ?_, ?_⟩
    · simp only
      rw [a3]
    · simp only [List.append_nil] at h2
      exact h2
    · exact h3
  · intro w1 d hw1
    obtain ⟨_, _, a3, a4, _, a6, _⟩ := hw1
    simp only
    rw [a3, a4, a6]
  · intro w1 d hw1
    exact SameFrame.trans (SameFrame.trans hw1 ⟨rfl, rfl, rfl, rfl, rfl, rfl, rfl, rfl, rfl, rfl⟩)
      (pushVisible_sameFrame p5 _ _ _)

theorem stepZ_spec (p5 : P5) (w : World) (s : Int) (hs : s ≠ 0) :
    SameFrame { w with prevCamChunkZ2 := w.prevCamChunkZ2 + s } (stepZ p5 w s) ∧
      ∃ added, (stepZ p5 w s).visibleChunks =
        (offsets w.renderDistance).foldl (fun vs d => vs.eraseP fun c =>
          decide (c.x = w.prevCamChunkX2 + d ∧ c.z = w.prevCamChunkZ2 - w.renderDistance * s))
          w.visibleChunks ++ added ∧
        coords added =
          rowCoords w.renderDistance w.prevCamChunkX2
            (w.prevCamChunkZ2 + w.renderDistance * s + s) := by
  unfold stepZ
  simp only
  rw [foldl_congr_inv (SameFrame w) _
    (fun w1 d => pushVisible p5
      { w1 with visibleChunks := (removeVisible w1.visibleChunks
          ((fun d => (w.prevCamChunkX2 + d, w.prevCamChunkZ2 - w.renderDistance * s)) d).1
          ((fun d => (w.prevCamChunkX2 + d, w.prevCamChunkZ2 - w.renderDistance * s)) d).2) }
      ((fun d => (w.prevCamChunkX2 + d, w.prevCamChunkZ2 + w.renderDistance * s + s)) d).1
      ((fun d => (w.prevCamChunkX2 + d, w.prevCamChunkZ2 + w.renderDistance * s + s)) d).2)
    ?_ ?_ _ w (SameFrame.refl w)]
  · obtain ⟨h1, added, h2, h3⟩ := foldl_removeAdd p5
      (fun d => (w.prevCamChunkX2 + d, w.prevCamChunkZ2 - w.renderDistance * s))
      (fun d => (w.prevCamChunkX2 + d, w.prevCamChunkZ2 + w.renderDistance * s + s))
      (offsets w.renderDistance) w w.visibleChunks [] (by simp)
      (by
        intro d d1 h
        simp only [Prod.mk.injEq] at h
        have h1 : w.renderDistance * s * 2 + s = 0 := by omega
        have h2 : s * (2 * w.renderDistance + 1) = 0 := by rw [← h1]; ring
        rcases mul_eq_zero.1 h2 with h3 | h3
        · exact hs h3
        · omega)
      (by simp)
    obtain ⟨a1, a2, a3, a4, a5, a6, a7, a8, a9, a10⟩ := h1
    refine ⟨⟨a1, a2, a3, ?_, a5, a6, a7, a8, a9, a10⟩, added, ?_, ?_⟩
    · simp only
      rw [a4]
    · simp only [List.append_nil] at h2
      exact h2
    · exact h3
  · intro w1 d hw1
    obtain ⟨_, _, a3, a4, _, a6, _⟩ := hw1
    simp only
    rw [a3, a4, a6]
  · intro w1 d hw1
    exact SameFrame.trans (SameFrame.trans hw1 ⟨rfl, rfl, rfl, rfl, rfl, rfl, rfl, rfl, rfl, rfl⟩)
      (pushVisible_sameFrame p5 _ _ _)

/-! ## The window moves with the tracked centre -/

theorem window_shift_x (r px pz s : Int) (hs : s = 1 ∨ s = -1) (l : List (Int × Int))
    (hl : l.Perm (windowCoords r px pz)) :
    (l.diff (columnCoords r (px - r * s) pz) ++ columnCoords r (px + r * s + s) pz).Perm
      (windowCoords r (px + s) pz) := by
  have hnd : l.Nodup := hl.nodup_iff.2 (nodup_windowCoords r px pz)
  have hmem : ∀ x z : Int,
      (x, z) ∈ l.diff (columnCoords r (px - r * s) pz) ++ columnCoords r (px + r * s + s) pz ↔
        (x, z) ∈ windowCoords r (px + s) pz := by
    intro x z
    rw [List.mem_append, hnd.diff_eq_filter, List.mem_filter, hl.mem_iff, mem_windowCoords,
      decide_eq_true_eq, mem_columnCoords, mem_columnCoords, mem_windowCoords]
    simp only [abs_le]
    rcases hs with rfl | rfl <;> simp only [mul_one, mul_neg] <;> omega
  rw [List.perm_ext_iff_of_nodup _ (nodup_windowCoords r (px + s) pz)]
  · rintro ⟨x, z⟩
    exact hmem x z
  · rw [List.nodup_append]
    rw [hnd.diff_eq_filter]
    refine ⟨hnd.filter _, nodup_columnCoords _ _ _, ?_⟩
    rintro ⟨x, z⟩ h1 h2
    rw [List.mem_filter, hl.mem_iff, mem_windowCoords, decide_eq_true_eq, mem_columnCoords] at h1
    rw [mem_columnCoords] at h2
    simp only [abs_le] at h1 h2
    rcases hs with rfl | rfl <;> simp only [mul_one, mul_neg] at h1 h2 <;> omega

theorem window_shift_z (r px pz s : Int) (hs : s = 1 ∨ s = -1) (l : List (Int × Int))
    (hl : l.Perm (windowCoords r px pz)) :
    (l.diff (rowCoords r px (pz - r * s)) ++ rowCoords r px (pz + r * s + s)).Perm
      (windowCoords r px (pz + s)) := by
  have hnd : l.Nodup := hl.nodup_iff.2 (nodup_windowCoords r px pz)
  have hmem : ∀ x z : Int,
      (x, z) ∈ l.diff (rowCoords r px (pz - r * s)) ++ rowCoords r px (pz + r * s + s) ↔
        (x, z) ∈ windowCoords r px (pz + s) := by
    intro x z
    rw [List.mem_append, hnd.diff_eq_filter, List.mem_filter, hl.mem_iff, mem_windowCoords,
      decide_eq_true_eq, mem_rowCoords, mem_rowCoords, mem_windowCoords]
    simp only [abs_le]
    rcases hs with rfl | rfl <;> simp only [mul_one, mul_neg] <;> omega
  rw [List.perm_ext_iff_of_nodup _ (nodup_windowCoords r px (pz + s))]
  · rintro ⟨x, z⟩
    exact hmem x z
  · rw [List.nodup_append]
    rw [hnd.diff_eq_filter]
    refine ⟨hnd.filter _, nodup_rowCoords _ _ _, ?_⟩
    rintro ⟨x, z⟩ h1 h2
    rw [List.mem_filter, hl.mem_iff, mem_windowCoords, decide_eq_true_eq, mem_rowCoords] at h1
    rw [mem_rowCoords] at h2
    simp only [abs_le] at h1 h2
    rcases hs with rfl | rfl <;> simp only [mul_one, mul_neg] at h1 h2 <;> omega

theorem ne_zero_of_unit {s : Int} (hs : s = 1 ∨ s = -1) : s ≠ 0 := by
  rcases hs with rfl | rfl <;> decide

theorem coords_stepX (p5 : P5) (w : World) (s : Int) (hs : s ≠ 0) :
    coords (stepX p5 w s).visibleChunks =
      (coords w.visibleChunks).diff
          (columnCoords w.renderDistance (w.prevCamChunkX2 - w.renderDistance * s)
            w.prevCamChunkZ2) ++
        columnCoords w.renderDistance (w.prevCamChunkX2 + w.renderDistance * s + s)
          w.prevCamChunkZ2 := by
  obtain ⟨_, added, h2, h3⟩ := stepX_spec p5 w s hs
  rw [h2, coords_append, h3]
  rw [coords_foldl_eraseP
    (fun d => (w.prevCamChunkX2 - w.renderDistance * s, w.prevCamChunkZ2 + d))]
  rfl

theorem coords_stepZ (p5 : P5) (w : World) (s : Int) (hs : s ≠ 0) :
    coords (stepZ p5 w s).visibleChunks =
      (coords w.visibleChunks).diff
          (rowCoords w.renderDistance w.prevCamChunkX2
            (w.prevCamChunkZ2 - w.renderDistance * s)) ++
        rowCoords w.renderDistance w.prevCamChunkX2
          (w.prevCamChunkZ2 + w.renderDistance * s + s) := by
  obtain ⟨_, added, h2, h3⟩ := stepZ_spec p5 w s hs
  rw [h2, coords_append, h3]
  rw [coords_foldl_eraseP
    (fun d => (w.prevCamChunkX2 + d, w.prevCamChunkZ2 - w.renderDistance * s))]
  rfl

/-- The state invariant of the incremental path: the visible set is the window of the
current render distance around the tracked centre. -/
theorem stepX_window (p5 : P5) (w : World) (s : Int) (hs : s = 1 ∨ s = -1)
    (hwin : (coords w.visibleChunks).Perm
      (windowCoords w.renderDistance w.prevCamChunkX2 w.prevCamChunkZ2)) :
    (coords (stepX p5 w s).visibleChunks).Perm
      (windowCoords (stepX p5 w s).renderDistance (stepX p5 w s).prevCamChunkX2
        (stepX p5 w s).prevCamChunkZ2) := by
  obtain ⟨⟨_, _, a3, a4, _, a6, _⟩, _⟩ := stepX_spec p5 w s (ne_zero_of_unit hs)
  simp only at a3 a4 a6
  rw [a3, a4, a6, coords_stepX p5 w s (ne_zero_of_unit hs)]
  exact window_shift_x _ _ _ s hs _ hwin

theorem stepZ_window (p5 : P5) (w : World) (s : Int) (hs : s = 1 ∨ s = -1)
    (hwin : (coords w.visibleChunks).Perm
      (windowCoords w.renderDistance w.prevCamChunkX2 w.prevCamChunkZ2)) :
    (coords (stepZ p5 w s).visibleChunks).Perm
      (windowCoords (stepZ p5 w s).renderDistance (stepZ p5 w s).prevCamChunkX2
        (stepZ p5 w s).prevCamChunkZ2) := by
  obtain ⟨⟨_, _, a3, a4, _, a6, _⟩, _⟩ := stepZ_spec p5 w s (ne_zero_of_unit hs)
  simp only at a3 a4 a6
  rw [a3, a4, a6, coords_stepZ p5 w s (ne_zero_of_unit hs)]
  exact window_shift_z _ _ _ s hs _ hwin

theorem reconcile_unfold (p5 : P5) (w : World) (dx dz : Int) :
    reconcile p5 w dx dz =
      if dx ≠ 0 then
        reconcile p5 (stepX p5 w (if dx > 0 then 1 else -1)) (dx - (if dx > 0 then 1 else -1)) dz
      else if dz ≠ 0 then
        reconcile p5 (stepZ p5 w (if dz > 0 then 1 else -1)) dx (dz - (if dz > 0 then 1 else -1))
      else w := by
  rw [reconcile]

theorem unit_of_sign (d : Int) : (if d > 0 then (1 : Int) else -1) = 1 ∨
    (if d > 0 then (1 : Int) else -1) = -1 := by
  split_ifs
  · exact Or.inl rfl
  · exact Or.inr rfl

theorem natAbs_sub_sign_lt (d : Int) (hd : d ≠ 0) :
    (d - (if d > 0 then 1 else -1)).natAbs < d.natAbs := by
  split_ifs <;> omega

/-- Induction over the iterations of the `while` loop for a state predicate. -/
theorem reconcile_induction (p5 : P5) (P : World → Prop)
    (hX : ∀ w s, (s = 1 ∨ s = -1) → P w → P (stepX p5 w s))
    (hZ : ∀ w s, (s = 1 ∨ s = -1) → P w → P (stepZ p5 w s))
    (w : World) (dx dz : Int) (h : P w) : P (reconcile p5 w dx dz) := by
  obtain ⟨n, hn⟩ : ∃ n, dx.natAbs + dz.natAbs = n := ⟨_, rfl⟩
  induction n using Nat.strong_induction_on generalizing w dx dz with
  | _ n ih =>
    rw [reconcile_unfold]
    by_cases h1 : dx ≠ 0
    · rw [if_pos h1]
      have hlt := natAbs_sub_sign_lt dx h1
      exact ih _ (by omega) _ _ _ (hX w _ (unit_of_sign dx) h) rfl
    · rw [if_neg h1]
      by_cases h2 : dz ≠ 0
      · rw [if_pos h2]
        have hlt := natAbs_sub_sign_lt dz h2
        exact ih _ (by omega) _ _ _ (hZ w _ (unit_of_sign dz) h) rfl
      · rw [if_neg h2]
        exact h

/-- The loop ends with the tracked centre moved by `(dx, dz)`, other globals untouched. -/
theorem reconcile_frame (p5 : P5) (w : World) (dx dz : Int) :
    SameFrame { w with prevCamChunkX2 := w.prevCamChunkX2 + dx,
                       prevCamChunkZ2 := w.prevCamChunkZ2 + dz } (reconcile p5 w dx dz) := by
  obtain ⟨n, hn⟩ : ∃ n, dx.natAbs + dz.natAbs = n := ⟨_, rfl⟩
  induction n using Nat.strong_induction_on generalizing w dx dz with
  | _ n ih =>
    rw [reconcile_unfold]
    by_cases h1 : dx ≠ 0
    · rw [if_pos h1]
      have hlt := natAbs_sub_sign_lt dx h1
      have hstep := (stepX_spec p5 w _ (ne_zero_of_unit (unit_of_sign dx))).1
      have hrec := ih _ (by omega)
        (stepX p5 w (if dx > 0 then 1 else -1)) (dx - (if dx > 0 then 1 else -1)) dz rfl
      obtain ⟨a1, a2, a3, a4, a5, a6, a7, a8, a9, a10⟩ := hstep
      obtain ⟨b1, b2, b3, b4, b5, b6, b7, b8, b9, b10⟩ := hrec
      simp only at a1 a2 a3 a4 a5 a6 a7 a8 a9 a10 b1 b2 b3 b4 b5 b6 b7 b8 b9 b10
      refine ⟨b1.trans a1, b2.trans a2, ?_, ?_, b5.trans a5, b6.trans a6, b7.trans a7,
        b8.trans a8, b9.trans a9, b10.trans a10⟩
      · simp only
        rw [b3, a3]
        ring
      · simp only
        rw [b4, a4]
    · rw [if_neg h1]
      by_cases h2 : dz ≠ 0
      · rw [if_pos h2]
        have hlt := natAbs_sub_sign_lt dz h2
        have hstep := (stepZ_spec p5 w _ (ne_zero_of_unit (unit_of_sign dz))).1
        have hrec := ih _ (by omega)
          (stepZ p5 w (if dz > 0 then 1 else -1)) dx (dz - (if dz > 0 then 1 else -1)) rfl
        obtain ⟨a1, a2, a3, a4, a5, a6, a7, a8, a9, a10⟩ := hstep
        obtain ⟨b1, b2, b3, b4, b5, b6, b7, b8, b9, b10⟩ := hrec
        simp only at a1 a2 a3 a4 a5 a6 a7 a8 a9 a10 b1 b2 b3 b4 b5 b6 b7 b8 b9 b10
        refine ⟨b1.trans a1, b2.trans a2, ?_, ?_, b5.trans a5, b6.trans a6, b7.trans a7,
          b8.trans a8, b9.trans a9, b10.trans a10⟩
        · simp only
          rw [b3, a3]
        · simp only
          rw [b4, a4]
          ring
      · rw [if_neg h2]
        simp only [ne_eq, not_not] at h1 h2
        subst h1 h2
        exact ⟨rfl, rfl, by simp, by simp, rfl, rfl, rfl, rfl, rfl, rfl⟩

theorem reconcile_window (p5 : P5) (w : World) (dx dz : Int)
    (hwin : (coords w.visibleChunks).Perm
      (windowCoords w.renderDistance w.prevCamChunkX2 w.prevCamChunkZ2)) :
    (coords (reconcile p5 w dx dz).visibleChunks).Perm
      (windowCoords w.renderDistance (w.prevCamChunkX2 + dx) (w.prevCamChunkZ2 + dz)) := by
  have h := reconcile_induction p5
    (fun w => (coords w.visibleChunks).Perm
      (windowCoords w.renderDistance w.prevCamChunkX2 w.prevCamChunkZ2))
    (fun w s hs h => stepX_window p5 w s hs h) (fun w s hs h => stepZ_window p5 w s hs h)
    w dx dz hwin
  obtain ⟨_, _, a3, a4, _, a6, _⟩ := reconcile_frame p5 w dx dz
  simp only at h a3 a4 a6
  rw [a3, a4, a6] at h
  exact h

theorem getVisibleChunks_window (p5 : P5) (w : World)
    (h : w.visibleChunks = [] ∨ (coords w.visibleChunks).Perm
      (windowCoords w.renderDistance w.prevCamChunkX2 w.prevCamChunkZ2)) :
    (getVisibleChunks p5 w).renderDistance = w.renderDistance ∧
      (getVisibleChunks p5 w).prevCamChunkX2 = floor (w.camX / CHUNK_SIZE) ∧
      (getVisibleChunks p5 w).prevCamChunkZ2 = floor (w.camZ / CHUNK_SIZE) ∧
      (coords (getVisibleChunks p5 w).visibleChunks).Perm
        (windowCoords w.renderDistance (floor (w.camX / CHUNK_SIZE))
          (floor (w.camZ / CHUNK_SIZE))) := by
  unfold getVisibleChunks
  simp only
  by_cases hlen : w.visibleChunks.length = 0
  · rw [if_pos hlen]
    obtain ⟨hf, hc⟩ := fillVisible_spec p5 w (floor (w.camX / CHUNK_SIZE))
      (floor (w.camZ / CHUNK_SIZE))
    refine ⟨hf.2.2.2.2.2.1, rfl, rfl, ?_⟩
    simp only
    rw [hc, List.length_eq_zero.1 hlen]
    simp [coords]
  · rw [if_neg hlen]
    have hwin := h.resolve_left (fun h0 => hlen (by rw [h0]; rfl))
    obtain ⟨_, _, a3, a4, _, a6, _⟩ := reconcile_frame p5 w
      (floor (w.camX / CHUNK_SIZE) - w.prevCamChunkX2)
      (floor (w.camZ / CHUNK_SIZE) - w.prevCamChunkZ2)
    have hw := reconcile_window p5 w (floor (w.camX / CHUNK_SIZE) - w.prevCamChunkX2)
      (floor (w.camZ / CHUNK_SIZE) - w.prevCamChunkZ2) hwin
    simp only at a3 a4 a6
    refine ⟨a6, by rw [a3]; ring, by rw [a4]; ring, ?_⟩
    have e1 : w.prevCamChunkX2 + (floor (w.camX / CHUNK_SIZE) - w.prevCamChunkX2) =
        floor (w.camX / CHUNK_SIZE) := by ring
    have e2 : w.prevCamChunkZ2 + (floor (w.camZ / CHUNK_SIZE) - w.prevCamChunkZ2) =
        floor (w.camZ / CHUNK_SIZE) := by ring
    rw [e1, e2] at hw
    exact hw

theorem foldl_inv {α : Type} (P : World → Prop) (f : World → α → World)
    (hstep : ∀ w a, P w → P (f w a)) (l : List α) (w : World) (h : P w) :
    P (l.foldl f w) := by
  induction l generalizing w with
  | nil => exact h
  | cons a l ih => exact ih _ (hstep w a h)

/-- After a frame the visible set is the window around the camera chunk of that frame. -/
theorem frame_window (p5 : P5) (w : World) (cam : Rat × Rat)
    (h : w.visibleChunks = [] ∨ (coords w.visibleChunks).Perm
      (windowCoords w.renderDistance w.prevCamChunkX2 w.prevCamChunkZ2)) :
    (frame p5 w cam).renderDistance = w.renderDistance ∧
      (frame p5 w cam).prevCamChunkX2 = floor (cam.1 / CHUNK_SIZE) ∧
      (frame p5 w cam).prevCamChunkZ2 = floor (cam.2 / CHUNK_SIZE) ∧
      (coords (frame p5 w cam).visibleChunks).Perm
        (windowCoords w.renderDistance (floor (cam.1 / CHUNK_SIZE))
          (floor (cam.2 / CHUNK_SIZE))) :=
  getVisibleChunks_window p5 { w with camX := cam.1, camZ := cam.2 } h

theorem frames_inv (p5 : P5) (w0 : World) (hempty : w0.visibleChunks = [])
    (cams : List (Rat × Rat)) :
    (frames p5 w0 cams).renderDistance = w0.renderDistance ∧
      ((frames p5 w0 cams).visibleChunks = [] ∨
        (coords (frames p5 w0 cams).visibleChunks).Perm
          (windowCoords (frames p5 w0 cams).renderDistance
            (frames p5 w0 cams).prevCamChunkX2 (frames p5 w0 cams).prevCamChunkZ2)) := by
  unfold frames
  apply foldl_inv (fun w => w.renderDistance = w0.renderDistance ∧
      (w.visibleChunks = [] ∨ (coords w.visibleChunks).Perm
        (windowCoords w.renderDistance w.prevCamChunkX2 w.prevCamChunkZ2)))
  · intro w cam hw
    obtain ⟨h1, h2, h3, h4⟩ := frame_window p5 w cam hw.2
    refine ⟨h1.trans hw.1, Or.inr ?_⟩
    rw [h1, h2, h3]
    exact h4
  · exact ⟨rfl, Or.inl hempty⟩

theorem frames_append_singleton (p5 : P5) (w0 : World) (cams : List (Rat × Rat))
    (cam : Rat × Rat) :
    frames p5 w0 (cams ++ [cam]) = frame p5 (frames p5 w0 cams) cam := by
  simp [frames, List.foldl_append]

/-! ## Invariants of the chunk store -/

theorem getOrGenerate_store (p5 : P5) (P : List Chunk → Prop)
    (hP : ∀ gs scale type x z, P gs → (x, z) ∉ coords gs →
      P (gs ++ [buildChunk p5 scale type x z]))
    (w : World) (x z : Int) (h : P w.generatedChunks) :
    P (getOrGenerate p5 w x z).2.generatedChunks := by
  unfold getOrGenerate
  split
  · exact h
  · next hnone => exact hP _ _ _ _ _ h (getGeneratedChunk_none.1 hnone)

theorem pushVisible_store (p5 : P5) (P : List Chunk → Prop)
    (hP : ∀ gs scale type x z, P gs → (x, z) ∉ coords gs →
      P (gs ++ [buildChunk p5 scale type x z]))
    (w : World) (x z : Int) (h : P w.generatedChunks) :
    P (pushVisible p5 w x z).generatedChunks := by
  rw [pushVisible_generatedChunks]
  exact getOrGenerate_store p5 P hP w x z h

theorem fillVisible_store (p5 : P5) (P : List Chunk → Prop)
    (hP : ∀ gs scale type x z, P gs → (x, z) ∉ coords gs →
      P (gs ++ [buildChunk p5 scale type x z]))
    (w : World) (cx cz : Int) (h : P w.generatedChunks) :
    P (fillVisible p5 w cx cz).generatedChunks := by
  unfold fillVisible
  apply foldl_inv (fun w => P w.generatedChunks) _ _ _ _ h
  intro w1 dz h1
  apply foldl_inv (fun w => P w.generatedChunks) _ _ _ _ h1
  intro w2 dx h2
  exact pushVisible_store p5 P hP w2 _ _ h2

theorem stepX_store (p5 : P5) (P : List Chunk → Prop)
    (hP : ∀ gs scale type x z, P gs → (x, z) ∉ coords gs →
      P (gs ++ [buildChunk p5 scale type x z]))
    (w : World) (s : Int) (h : P w.generatedChunks) :
    P (stepX p5 w s).generatedChunks := by
  unfold stepX
  simp only
  apply foldl_inv (fun w => P w.generatedChunks) _ _ _ _ h
  intro w1 d h1
  exact pushVisible_store p5 P hP _ _ _ h1

theorem stepZ_store (p5 : P5) (P : List Chunk → Prop)
    (hP : ∀ gs scale type x z, P gs → (x, z) ∉ coords gs →
      P (gs ++ [buildChunk p5 scale type x z]))
    (w : World) (s : Int) (h : P w.generatedChunks) :
    P (stepZ p5 w s).generatedChunks := by
  unfold stepZ
  simp only
  apply foldl_inv (fun w => P w.generatedChunks) _ _ _ _ h
  intro w1 d h1
  exact pushVisible_store p5 P hP _ _ _ h1

theorem getVisibleChunks_store (p5 : P5) (P : List Chunk → Prop)
    (hP : ∀ gs scale type x z, P gs → (x, z) ∉ coords gs →
      P (gs ++ [buildChunk p5 scale type x z]))
    (w : World) (h : P w.generatedChunks) :
    P (getVisibleChunks p5 w).generatedChunks := by
  unfold getVisibleChunks
  simp only
  split_ifs
  · exact fillVisible_store p5 P hP w _ _ h
  · exact reconcile_induction p5 (fun w => P w.generatedChunks)
      (fun w s _ h => stepX_store p5 P hP w s h) (fun w s _ h => stepZ_store p5 P hP w s h)
      w _ _ h

theorem getVisibleChunksO_store (p5 : P5) (P : List Chunk → Prop)
    (hP : ∀ gs scale type x z, P gs → (x, z) ∉ coords gs →
      P (gs ++ [buildChunk p5 scale type x z]))
    (w : World) (h : P w.generatedChunks) :
    P (getVisibleChunksO p5 w).generatedChunks := by
  unfold getVisibleChunksO
  exact fillVisible_store p5 P hP _ _ _ h

theorem apply_store (p5 : P5) (P : List Chunk → Prop)
    (hP : ∀ gs scale type x z, P gs → (x, z) ∉ coords gs →
      P (gs ++ [buildChunk p5 scale type x z]))
    (w : World) (op : Op) (h : P w.generatedChunks) :
    P (op.apply p5 w).generatedChunks := by
  cases op with
  | setCam camX camZ => exact h
  | getVisibleChunks => exact getVisibleChunks_store p5 P hP w h
  | getVisibleChunksO => exact getVisibleChunksO_store p5 P hP w h
  | changeRenderDistance change => exact h

theorem built_store_step (p5 : P5) (gs : List Chunk) (scale : Rat) (type : String)
    (x z : Int)
    (h : ∀ c ∈ gs, ∃ p scale type, c = buildChunk p scale type c.x c.z) :
    ∀ c ∈ gs ++ [buildChunk p5 scale type x z],
      ∃ p scale type, c = buildChunk p scale type c.x c.z := by
  intro c hc
  rcases List.mem_append.1 hc with hc | hc
  · exact h c hc
  · simp only [List.mem_singleton] at hc
    subst hc
    exact ⟨p5, scale, type, rfl⟩

theorem nodup_store_step (p5 : P5) (gs : List Chunk) (scale : Rat) (type : String)
    (x z : Int) (h : (coords gs).Nodup) (hnew : (x, z) ∉ coords gs) :
    (coords (gs ++ [buildChunk p5 scale type x z])).Nodup := by
  rw [coords_append, List.nodup_append]
  refine ⟨h, by simp [coords], ?_⟩
  intro p hp hp1
  simp only [coords, List.map_cons, List.map_nil, List.mem_singleton, buildChunk_x,
    buildChunk_z] at hp1
  subst hp1
  exact hnew hp

theorem runOps_store_nodup (p5 : P5) (w0 : World) (h : (coords w0.generatedChunks).Nodup)
    (ops : List Op) : (coords (runOps p5 w0 ops).generatedChunks).Nodup := by
  unfold runOps
  apply foldl_inv (fun w => (coords w.generatedChunks).Nodup) _ _ _ _ h
  intro w op hw
  exact apply_store p5 (fun gs => (coords gs).Nodup)
    (fun gs scale type x z => nodup_store_step p5 gs scale type x z) w op hw

/-- From an empty store, every stored chunk is one that `generateChunk` built. -/
theorem runOps_store_built (p5 : P5) (w0 : World) (h : w0.generatedChunks = [])
    (ops : List Op) :
    ∀ c ∈ (runOps p5 w0 ops).generatedChunks,
      ∃ p scale type, c = buildChunk p scale type c.x c.z := by
  unfold runOps
  apply foldl_inv (fun w => ∀ c ∈ w.generatedChunks,
    ∃ p scale type, c = buildChunk p scale type c.x c.z)
  · intro w op hw
    exact apply_store p5
      (fun gs => ∀ c ∈ gs, ∃ p scale type, c = buildChunk p scale type c.x c.z)
      (fun gs scale type x z hgs _ => built_store_step p5 gs scale type x z hgs) w op hw
  · rw [h]
    intro c hc
    simp at hc

theorem getOrGenerateTimes_of_some (p5 : P5) (x z : Int) (n : Nat) (w : World) (c : Chunk)
    (h : getGeneratedChunk w.generatedChunks x z = some c) :
    getOrGenerateTimes p5 x z n w = (List.replicate n c, w) := by
  induction n with
  | zero => rfl
  | succ n ih =>
    have h1 : getOrGenerate p5 w x z = (c, w) := by
      unfold getOrGenerate
      rw [h]
    simp only [getOrGenerateTimes, h1, ih, List.replicate_succ]

theorem getGeneratedChunk_append_new (gs : List Chunk) (c : Chunk)
    (hnew : (c.x, c.z) ∉ coords gs) :
    getGeneratedChunk (gs ++ [c]) c.x c.z = some c := by
  have hnone := getGeneratedChunk_none.2 hnew
  unfold getGeneratedChunk at hnone ⊢
  rw [List.find?_append, hnone]
  simp

theorem getOrGenerateTimes_spec (p5 : P5) (x z : Int) (n : Nat) (w : World) :
    ∃ c, c.x = x ∧ c.z = z ∧
      (getOrGenerateTimes p5 x z (n + 1) w).1 = List.replicate (n + 1) c ∧
      ((getGeneratedChunk w.generatedChunks x z = none ∧
          (getOrGenerateTimes p5 x z (n + 1) w).2.generatedChunks = w.generatedChunks ++ [c]) ∨
        (getGeneratedChunk w.generatedChunks x z = some c ∧
          (getOrGenerateTimes p5 x z (n + 1) w).2.generatedChunks = w.generatedChunks)) := by
  cases hget : getGeneratedChunk w.generatedChunks x z with
  | some c =>
    refine ⟨c, (getGeneratedChunk_some hget).2.1, (getGeneratedChunk_some hget).2.2, ?_,
      Or.inr ⟨rfl, ?_⟩⟩
    · rw [getOrGenerateTimes_of_some p5 x z (n + 1) w c hget]
    · rw [getOrGenerateTimes_of_some p5 x z (n + 1) w c hget]
  | none =>
    have h1 : getOrGenerate p5 w x z = generateChunk p5 w x z := by
      unfold getOrGenerate
      rw [hget]
    have hnew : ((buildChunk p5 w.worldGenScale w.worldGenType x z).x,
        (buildChunk p5 w.worldGenScale w.worldGenType x z).z) ∉ coords w.generatedChunks :=
      getGeneratedChunk_none.1 hget
    have h2 := getGeneratedChunk_append_new w.generatedChunks _ hnew
    rw [buildChunk_x, buildChunk_z] at h2
    have h3 := getOrGenerateTimes_of_some p5 x z n (generateChunk p5 w x z).2
      (buildChunk p5 w.worldGenScale w.worldGenType x z) h2
    refine ⟨buildChunk p5 w.worldGenScale w.worldGenType x z, rfl, rfl, ?_, Or.inl ⟨rfl, ?_⟩⟩
    · simp only [getOrGenerateTimes, h1, h3, List.replicate_succ]
      rfl
    · simp only [getOrGenerateTimes, h1, h3]
      rfl

theorem filter_coords_of_not_mem (gs : List Chunk) (x z : Int) (h : (x, z) ∉ coords gs) :
    gs.filter (fun g => decide (g.x = x ∧ g.z = z)) = [] := by
  rw [List.filter_eq_nil_iff]
  intro g hg
  simp only [decide_eq_true_eq]
  rintro ⟨rfl, rfl⟩
  exact h (List.mem_map_of_mem (fun c => (c.x, c.z)) hg)

theorem filter_coords_length (gs : List Chunk) (hnd : (coords gs).Nodup) (x z : Int)
    (h : (x, z) ∈ coords gs) :
    (gs.filter fun g => decide (g.x = x ∧ g.z = z)).length = 1 := by
  induction gs with
  | nil => simp [coords] at h
  | cons g gs ih =>
    simp only [coords, List.map_cons, List.nodup_cons] at hnd
    simp only [List.filter_cons]
    by_cases hg : g.x = x ∧ g.z = z
    · rw [if_pos (decide_eq_true hg)]
      have hnot : (x, z) ∉ coords gs := by
        rw [← hg.1, ← hg.2]
        exact hnd.1
      rw [filter_coords_of_not_mem gs x z hnot]
      rfl
    · rw [if_neg (by simpa using hg)]
      apply ih hnd.2
      simp only [coords, List.map_cons, List.mem_cons, Prod.mk.injEq] at h
      rcases h with h | h
      · exact absurd ⟨h.1.symm, h.2.symm⟩ hg
      · exact h

/-! ## One unit step on a window -/

theorem reconcile_unit_x (p5 : P5) (w : World) (s : Int) (hs : s = 1 ∨ s = -1) :
    reconcile p5 w s 0 = stepX p5 w s := by
  rw [reconcile_unfold, if_pos (ne_zero_of_unit hs)]
  have h1 : (if s > 0 then (1 : Int) else -1) = s := by
    rcases hs with rfl | rfl <;> decide
  rw [h1, sub_self, reconcile_unfold]
  simp

theorem reconcile_unit_z (p5 : P5) (w : World) (s : Int) (hs : s = 1 ∨ s = -1) :
    reconcile p5 w 0 s = stepZ p5 w s := by
  rw [reconcile_unfold, if_neg (by simp), if_pos (ne_zero_of_unit hs)]
  have h1 : (if s > 0 then (1 : Int) else -1) = s := by
    rcases hs with rfl | rfl <;> decide
  rw [h1, sub_self, reconcile_unfold]
  simp

theorem isWindow_ne_nil (r cx cz : Int) (vs : List Chunk) (hr : 0 ≤ r)
    (hwin : IsWindow r cx cz vs) : vs.length ≠ 0 := by
  have h : (cx, cz) ∈ coords vs := (hwin.1 cx cz).2 (by simp [hr])
  intro h0
  rw [List.length_eq_zero.1 h0] at h
  simp [coords] at h

theorem coords_filter (vs : List Chunk) (q : Int × Int → Bool) :
    coords (vs.filter fun c => q (c.x, c.z)) = (coords vs).filter q := by
  unfold coords
  rw [List.filter_map]
  rfl

theorem length_cast_of_coords {l : List Chunk} {m : List (Int × Int)} {r : Int}
    (hr : 0 ≤ r) (h : (coords l).Perm m) (hm : m.length = (2 * r + 1).toNat) :
    (l.length : Int) = 2 * r + 1 := by
  have h1 : l.length = (2 * r + 1).toNat := by
    rw [← hm, ← h.length_eq]
    simp [coords]
  rw [h1]
  omega

theorem window_step_x (p5 : P5) (w : World) (s : Int) (hs : s = 1 ∨ s = -1)
    (hR : 0 ≤ w.renderDistance)
    (hwin : IsWindow w.renderDistance w.prevCamChunkX2 w.prevCamChunkZ2 w.visibleChunks) :
    ∃ added, (stepX p5 w s).visibleChunks =
        (w.visibleChunks.filter fun c =>
          decide (c.x ≠ w.prevCamChunkX2 - s * w.renderDistance)) ++ added ∧
      coords added =
        columnCoords w.renderDistance (w.prevCamChunkX2 + s * (w.renderDistance + 1))
          w.prevCamChunkZ2 ∧
      (added.length : Int) = 2 * w.renderDistance + 1 ∧
      (coords (w.visibleChunks.filter fun c =>
          decide (c.x = w.prevCamChunkX2 - s * w.renderDistance))).Perm
        (columnCoords w.renderDistance (w.prevCamChunkX2 - s * w.renderDistance)
          w.prevCamChunkZ2) ∧
      ((w.visibleChunks.filter fun c =>
          decide (c.x = w.prevCamChunkX2 - s * w.renderDistance)).length : Int) =
        2 * w.renderDistance + 1 := by
  obtain ⟨hmem, hnd⟩ := hwin
  obtain ⟨_, added, h2, h3⟩ := stepX_spec p5 w s (ne_zero_of_unit hs)
  have e1 : w.prevCamChunkX2 + w.renderDistance * s + s =
      w.prevCamChunkX2 + s * (w.renderDistance + 1) := by ring
  have e2 : w.renderDistance * s = s * w.renderDistance := mul_comm _ _
  rw [e1] at h3
  rw [e2] at h2
  have hrem : (coords (w.visibleChunks.filter fun c =>
      decide (c.x = w.prevCamChunkX2 - s * w.renderDistance))).Perm
      (columnCoords w.renderDistance (w.prevCamChunkX2 - s * w.renderDistance)
        w.prevCamChunkZ2) := by
    rw [coords_filter w.visibleChunks
      (fun p => decide (p.1 = w.prevCamChunkX2 - s * w.renderDistance))]
    rw [List.perm_ext_iff_of_nodup (hnd.filter _) (nodup_columnCoords _ _ _)]
    rintro ⟨x, z⟩
    rw [List.mem_filter, hmem, mem_columnCoords]
    simp only [decide_eq_true_eq, abs_le]
    rcases hs with rfl | rfl <;> constructor <;> intro h <;> omega
  refine ⟨added, ?_, h3, ?_, hrem, ?_⟩
  · rw [h2, foldl_eraseP_eq_filter
      (fun d => (w.prevCamChunkX2 - s * w.renderDistance, w.prevCamChunkZ2 + d)) _ _ hnd]
    congr 1
    apply List.filter_congr
    intro c hc
    have hcw := (hmem c.x c.z).1 (List.mem_map_of_mem (fun c => (c.x, c.z)) hc)
    have hcol := mem_columnCoords w.renderDistance
      (w.prevCamChunkX2 - s * w.renderDistance) w.prevCamChunkZ2 c.x c.z
    unfold columnCoords at hcol
    simp only [hcol, hcw.2, and_true]
  · exact length_cast_of_coords hR (List.Perm.of_eq h3) (length_columnCoords _ _ _)
  · exact length_cast_of_coords hR hrem (length_columnCoords _ _ _)

theorem window_step_z (p5 : P5) (w : World) (s : Int) (hs : s = 1 ∨ s = -1)
    (hR : 0 ≤ w.renderDistance)
    (hwin : IsWindow w.renderDistance w.prevCamChunkX2 w.prevCamChunkZ2 w.visibleChunks) :
    ∃ added, (stepZ p5 w s).visibleChunks =
        (w.visibleChunks.filter fun c =>
          decide (c.z ≠ w.prevCamChunkZ2 - s * w.renderDistance)) ++ added ∧
      coords added =
        rowCoords w.renderDistance w.prevCamChunkX2
          (w.prevCamChunkZ2 + s * (w.renderDistance + 1)) ∧
      (added.length : Int) = 2 * w.renderDistance + 1 ∧
      (coords (w.visibleChunks.filter fun c =>
          decide (c.z = w.prevCamChunkZ2 - s * w.renderDistance))).Perm
        (rowCoords w.renderDistance w.prevCamChunkX2
          (w.prevCamChunkZ2 - s * w.renderDistance)) ∧
      ((w.visibleChunks.filter fun c =>
          decide (c.z = w.prevCamChunkZ2 - s * w.renderDistance)).length : Int) =
        2 * w.renderDistance + 1 := by
  obtain ⟨hmem, hnd⟩ := hwin
  obtain ⟨_, added, h2, h3⟩ := stepZ_spec p5 w s (ne_zero_of_unit hs)
  have e1 : w.prevCamChunkZ2 + w.renderDistance * s + s =
      w.prevCamChunkZ2 + s * (w.renderDistance + 1) := by ring
  have e2 : w.renderDistance * s = s * w.renderDistance := mul_comm _ _
  rw [e1] at h3
  rw [e2] at h2
  have hrem : (coords (w.visibleChunks.filter fun c =>
      decide (c.z = w.prevCamChunkZ2 - s * w.renderDistance))).Perm
      (rowCoords w.renderDistance w.prevCamChunkX2
        (w.prevCamChunkZ2 - s * w.renderDistance)) := by
    rw [coords_filter w.visibleChunks
      (fun p => decide (p.2 = w.prevCamChunkZ2 - s * w.renderDistance))]
    rw [List.perm_ext_iff_of_nodup (hnd.filter _) (nodup_rowCoords _ _ _)]
    rintro ⟨x, z⟩
    rw [List.mem_filter, hmem, mem_rowCoords]
    simp only [decide_eq_true_eq, abs_le]
    rcases hs with rfl | rfl <;> constructor <;> intro h <;> omega
  refine ⟨added, ?_, h3, ?_, hrem, ?_⟩
  · rw [h2, foldl_eraseP_eq_filter
      (fun d => (w.prevCamChunkX2 + d, w.prevCamChunkZ2 - s * w.renderDistance)) _ _ hnd]
    congr 1
    apply List.filter_congr
    intro c hc
    have hcw := (hmem c.x c.z).1 (List.mem_map_of_mem (fun c => (c.x, c.z)) hc)
    have hrow := mem_rowCoords w.renderDistance w.prevCamChunkX2
      (w.prevCamChunkZ2 - s * w.renderDistance) c.x c.z
    unfold rowCoords at hrow
    simp only [hrow, hcw.1, true_and]
  · exact length_cast_of_coords hR (List.Perm.of_eq h3) (length_rowCoords _ _ _)
  · exact length_cast_of_coords hR hrem (length_rowCoords _ _ _)

/-! ## The claims -/

/-- C1 (window invariant): from an empty visible set and a render distance `R ≥ 1`, after
every `getVisibleChunks` call of any sequence of frames with arbitrary camera positions,
the chunk coordinates in `visibleChunks` are exactly the pairs within `R` of the tracked
centre on both axes, none occurs twice, and the tracked centre is the camera chunk of
that call. -/
theorem window_invariant (p5 : P5) (w0 : World) (_hR : 1 ≤ w0.renderDistance)
    (hempty : w0.visibleChunks = []) (cams : List (Rat × Rat)) (cam : Rat × Rat) :
    (frames p5 w0 (cams ++ [cam])).renderDistance = w0.renderDistance ∧
      (frames p5 w0 (cams ++ [cam])).prevCamChunkX2 = floor (cam.1 / CHUNK_SIZE) ∧
      (frames p5 w0 (cams ++ [cam])).prevCamChunkZ2 = floor (cam.2 / CHUNK_SIZE) ∧
      (∀ x z : Int, (x, z) ∈ coords (frames p5 w0 (cams ++ [cam])).visibleChunks ↔
        |x - (frames p5 w0 (cams ++ [cam])).prevCamChunkX2| ≤ w0.renderDistance ∧
        |z - (frames p5 w0 (cams ++ [cam])).prevCamChunkZ2| ≤ w0.renderDistance) ∧
      (coords (frames p5 w0 (cams ++ [cam])).visibleChunks).Nodup := by
  rw [frames_append_singleton]
  obtain ⟨hr, hinv⟩ := frames_inv p5 w0 hempty cams
  obtain ⟨h1, h2, h3, h4⟩ := frame_window p5 (frames p5 w0 cams) cam hinv
  rw [hr] at h1 h4
  obtain ⟨hmem, hnd⟩ := (isWindow_iff_perm _ _ _ _).2 h4
  refine ⟨h1, h2, h3, ?_, hnd⟩
  rw [h2, h3]
  exact hmem

theorem window_invariant_witness :
    (frames constP5 World.init ([(0, 0)] ++ [(40, -20)])).renderDistance = 20 ∧
      (frames constP5 World.init ([(0, 0)] ++ [(40, -20)])).prevCamChunkX2 =
        floor ((40 : Rat) / CHUNK_SIZE) ∧
      (frames constP5 World.init ([(0, 0)] ++ [(40, -20)])).prevCamChunkZ2 =
        floor ((-20 : Rat) / CHUNK_SIZE) ∧
      (∀ x z : Int,
        (x, z) ∈ coords (frames constP5 World.init ([(0, 0)] ++ [(40, -20)])).visibleChunks ↔
        |x - (frames constP5 World.init ([(0, 0)] ++ [(40, -20)])).prevCamChunkX2| ≤ 20 ∧
        |z - (frames constP5 World.init ([(0, 0)] ++ [(40, -20)])).prevCamChunkZ2| ≤ 20) ∧
      (coords (frames constP5 World.init ([(0, 0)] ++ [(40, -20)])).visibleChunks).Nodup :=
  window_invariant constP5 World.init (by decide) rfl [(0, 0)] (40, -20)

/-- C2 (incremental equivalence): for a render distance `R ≥ 1`, the chunk coordinates
held after an initial fill followed by stepwise updates along any sequence of camera
positions are, up to order, the coordinates produced by one full recomputation at the
final position, be it `getVisibleChunksO` or the initial-fill branch of
`getVisibleChunks`, run in any state `w2` with the same render distance. -/
theorem incremental_equivalence (p5 : P5) (w0 : World) (_hR : 1 ≤ w0.renderDistance)
    (hempty : w0.visibleChunks = []) (cams : List (Rat × Rat)) (final : Rat × Rat)
    (w2 : World) (hw2 : w2.renderDistance = w0.renderDistance) :
    (coords (frames p5 w0 (cams ++ [final])).visibleChunks).Perm
        (coords (getVisibleChunksO p5
          { w2 with camX := final.1, camZ := final.2 }).visibleChunks) ∧
      (coords (frames p5 w0 (cams ++ [final])).visibleChunks).Perm
        (coords (getVisibleChunks p5
          { w2 with camX := final.1, camZ := final.2, visibleChunks := [] }).visibleChunks) := by
  rw [frames_append_singleton]
  obtain ⟨hr, hinv⟩ := frames_inv p5 w0 hempty cams
  obtain ⟨_, _, _, h4⟩ := frame_window p5 (frames p5 w0 cams) final hinv
  rw [hr, ← hw2] at h4
  constructor
  · refine h4.trans ?_
    unfold getVisibleChunksO
    simp only
    rw [(fillVisible_spec p5 _ _ _).2]
    simp only [coords, List.map_nil, List.nil_append]
    exact List.Perm.refl _
  · refine h4.trans ?_
    obtain ⟨_, _, _, h5⟩ := getVisibleChunks_window p5
      { w2 with camX := final.1, camZ := final.2, visibleChunks := [] } (Or.inl rfl)
    exact h5.symm

theorem incremental_equivalence_witness :
    (coords (frames constP5 World.init ([(0, 0), (100, 7)] ++ [(-33, 64)])).visibleChunks).Perm
        (coords (getVisibleChunksO constP5
          { World.init with camX := ((-33, 64) : Rat × Rat).1,
                            camZ := ((-33, 64) : Rat × Rat).2 }).visibleChunks) ∧
      (coords (frames constP5 World.init ([(0, 0), (100, 7)] ++ [(-33, 64)])).visibleChunks).Perm
        (coords (getVisibleChunks constP5
          { World.init with camX := ((-33, 64) : Rat × Rat).1,
                            camZ := ((-33, 64) : Rat × Rat).2,
                            visibleChunks := [] }).visibleChunks) :=
  incremental_equivalence constP5 World.init (by decide) rfl [(0, 0), (100, 7)] (-33, 64)
    World.init rfl

/-- C3 (store single-instance): from an empty `generatedChunks`, after any sequence of
`getVisibleChunks`, `getVisibleChunksO` and `changeRenderDistance` calls (with camera
moves in between) no two stored chunks share their `(x, z)`; and the get-or-generate
step applied `n ≥ 1` times to the same coordinates returns the same chunk every time,
that chunk is stored, the store then holds exactly one chunk with these coordinates, and
the `n` applications append that one chunk when it was absent and nothing otherwise. -/
theorem store_single_instance (p5 : P5) (w0 : World) (hempty : w0.generatedChunks = [])
    (ops : List Op) (x z : Int) (n : Nat) (hn : 1 ≤ n) :
    (coords (runOps p5 w0 ops).generatedChunks).Nodup ∧
      ∃ c, c.x = x ∧ c.z = z ∧
        (getOrGenerateTimes p5 x z n (runOps p5 w0 ops)).1 = List.replicate n c ∧
        c ∈ (getOrGenerateTimes p5 x z n (runOps p5 w0 ops)).2.generatedChunks ∧
        ((getOrGenerateTimes p5 x z n (runOps p5 w0 ops)).2.generatedChunks.filter
          fun g => decide (g.x = x ∧ g.z = z)).length = 1 ∧
        ((getGeneratedChunk (runOps p5 w0 ops).generatedChunks x z = none ∧
            (getOrGenerateTimes p5 x z n (runOps p5 w0 ops)).2.generatedChunks =
              (runOps p5 w0 ops).generatedChunks ++ [c]) ∨
          (getGeneratedChunk (runOps p5 w0 ops).generatedChunks x z = some c ∧
            (getOrGenerateTimes p5 x z n (runOps p5 w0 ops)).2.generatedChunks =
              (runOps p5 w0 ops).generatedChunks)) := by
  have hnd : (coords (runOps p5 w0 ops).generatedChunks).Nodup :=
    runOps_store_nodup p5 w0 (by rw [hempty]; exact List.nodup_nil) ops
  obtain ⟨m, rfl⟩ : ∃ m, n = m + 1 := ⟨n - 1, by omega⟩
  obtain ⟨c, hx, hz, hres, hstore⟩ := getOrGenerateTimes_spec p5 x z m (runOps p5 w0 ops)
  refine ⟨hnd, c, hx, hz, hres, ?_, ?_, hstore⟩
  · rcases hstore with ⟨_, h2⟩ | ⟨h1, h2⟩
    · rw [h2]
      simp
    · rw [h2]
      exact (getGeneratedChunk_some h1).1
  · rcases hstore with ⟨h1, h2⟩ | ⟨h1, h2⟩
    · rw [h2]
      have hnew := getGeneratedChunk_none.1 h1
      rw [List.filter_append, List.length_append, filter_coords_of_not_mem _ _ _ hnew]
      simp [hx, hz]
    · rw [h2]
      apply filter_coords_length _ hnd
      have hc := getGeneratedChunk_some h1
      rw [← hc.2.1, ← hc.2.2]
      exact List.mem_map_of_mem (fun c => (c.x, c.z)) hc.1

theorem store_single_instance_witness :
    (coords (runOps constP5 World.init
        [Op.getVisibleChunks, Op.setCam 40 0, Op.getVisibleChunks]).generatedChunks).Nodup ∧
      ∃ c, c.x = 0 ∧ c.z = 0 ∧
        (getOrGenerateTimes constP5 0 0 3 (runOps constP5 World.init
          [Op.getVisibleChunks, Op.setCam 40 0, Op.getVisibleChunks])).1 = List.replicate 3 c ∧
        c ∈ (getOrGenerateTimes constP5 0 0 3 (runOps constP5 World.init
          [Op.getVisibleChunks, Op.setCam 40 0, Op.getVisibleChunks])).2.generatedChunks ∧
        ((getOrGenerateTimes constP5 0 0 3 (runOps constP5 World.init
          [Op.getVisibleChunks, Op.setCam 40 0, Op.getVisibleChunks])).2.generatedChunks.filter
          fun g => decide (g.x = 0 ∧ g.z = 0)).length = 1 ∧
        ((getGeneratedChunk (runOps constP5 World.init
            [Op.getVisibleChunks, Op.setCam 40 0, Op.getVisibleChunks]).generatedChunks 0 0
              = none ∧
            (getOrGenerateTimes constP5 0 0 3 (runOps constP5 World.init
              [Op.getVisibleChunks, Op.setCam 40 0, Op.getVisibleChunks])).2.generatedChunks =
              (runOps constP5 World.init
                [Op.getVisibleChunks, Op.setCam 40 0, Op.getVisibleChunks]).generatedChunks
                ++ [c]) ∨
          (getGeneratedChunk (runOps constP5 World.init
            [Op.getVisibleChunks, Op.setCam 40 0, Op.getVisibleChunks]).generatedChunks 0 0
              = some c ∧
            (getOrGenerateTimes constP5 0 0 3 (runOps constP5 World.init
              [Op.getVisibleChunks, Op.setCam 40 0, Op.getVisibleChunks])).2.generatedChunks =
              (runOps constP5 World.init
                [Op.getVisibleChunks, Op.setCam 40 0, Op.getVisibleChunks]).generatedChunks)) :=
  store_single_instance constP5 World.init rfl
    [Op.getVisibleChunks, Op.setCam 40 0, Op.getVisibleChunks] 0 0 3 (by decide)

/-- C4 (biome totality): for every elevation in [0,300], temperature in [0,1] and
rainfall in [0,1] the decision tree of the Default and of the Zenith mode leaves
`block.biome` set to a tag other than the placeholder `Biome.NULL`, never `null`, and
the test `biome == null` guarding the assignment of `Biome.NULL` is never true. -/
theorem biome_totality (b : Block) (_hy : 0 ≤ b.y ∧ b.y ≤ 300)
    (_ht : 0 ≤ b.temp ∧ b.temp ≤ 1) (_hr : 0 ≤ b.rainfall ∧ b.rainfall ≤ 1) :
    (∃ t, t ≠ Biome.NULL ∧ (defaultBiomeCell b).biome = some t) ∧
      (∃ t, t ≠ Biome.NULL ∧ (zenithBiomeCell b).biome = some t) ∧
      landBiome b.temp b.rainfall ≠ none := by
  refine ⟨⟨_, specClassify_ne_NULL b.y b.temp b.rainfall, defaultBiomeCell_biome b⟩,
    ⟨_, specClassify_ne_NULL b.y b.temp b.rainfall, ?_⟩, landBiome_ne_none _ _⟩
  rw [zenithBiomeCell_eq_defaultBiomeCell]
  exact defaultBiomeCell_biome b

theorem biome_totality_witness :
    (∃ t, t ≠ Biome.NULL ∧ (defaultBiomeCell cell100).biome = some t) ∧
      (∃ t, t ≠ Biome.NULL ∧ (zenithBiomeCell cell100).biome = some t) ∧
      landBiome cell100.temp cell100.rainfall ≠ none :=
  biome_totality cell100 (by norm_num [cell100]) (by norm_num [cell100])
    (by norm_num [cell100])

/-- C5 (classifier equals the specified tree): the Default-mode biome loop assigns every
block the tag that the decision tree of the specification gives for the block's
elevation, temperature and rainfall, and so does every cell of a chunk returned by
`generateChunk` in Default mode. -/
theorem classifier_matches_tree (p5 : P5) (w : World) (chunkX chunkZ : Int) (xi zi : Nat)
    (hmode : w.worldGenType = "Default") (hx : xi < CHUNK_SIZE) (hz : zi < CHUNK_SIZE) :
    (∀ b : Block, (defaultBiomeCell b).biome = some (specClassify b.y b.temp b.rainfall)) ∧
      ∃ b, (generateChunk p5 w chunkX chunkZ).1.blockAt xi zi = some b ∧
        b.biome = some (specClassify b.y b.temp b.rainfall) := by
  refine ⟨defaultBiomeCell_biome, ?_⟩
  rw [blockAt_natCast]
  simp only [generateChunk, hmode]
  exact buildChunk_default_gridAt p5 w.worldGenScale chunkX chunkZ xi zi hx hz

theorem classifier_matches_tree_witness :
    (∀ b : Block, (defaultBiomeCell b).biome = some (specClassify b.y b.temp b.rainfall)) ∧
      ∃ b, (generateChunk constP5 World.init 2 (-3)).1.blockAt (5 : Nat) (15 : Nat) = some b ∧
        b.biome = some (specClassify b.y b.temp b.rainfall) :=
  classifier_matches_tree constP5 World.init 2 (-3) 5 15 rfl (by decide) (by decide)

/-- C6, as stated, fails: a Default-mode cell with elevation 100 and temperature 0.2 is
not classified DeepOcean (it is ColdOcean, since 100 is not below 75). -/
theorem deep_ocean_scenario_counterexample :
    (defaultBiomeCell cell100).biome ≠ some Biome.DEEPOCEAN := by
  rw [defaultBiomeCell_biome]
  norm_num [specClassify, cell100]
  decide

/-- C6, amended: at elevation 100 (below sea level 150, not below 75) the Default-mode
biome is chosen by temperature alone, ColdOcean below 0.33, Ocean below 0.66, WarmOcean
otherwise, for every rainfall; at every elevation below 75 the biome is DeepOcean for
every temperature and rainfall. -/
theorem ocean_band_scenario (b b1 : Block) (h100 : b.y = 100) (hdeep : b1.y < SEA_LEVEL / 2) :
    (defaultBiomeCell b).biome =
        some (if b.temp < 33 / 100 then Biome.COLDOCEAN
          else if b.temp < 66 / 100 then Biome.OCEAN else Biome.WARMOCEAN) ∧
      (defaultBiomeCell b1).biome = some Biome.DEEPOCEAN := by
  constructor
  · rw [defaultBiomeCell_biome]
    simp only [specClassify, h100]
    norm_num
  · rw [defaultBiomeCell_biome]
    have h1 : b1.y < 150 / 2 := by simpa [SEA_LEVEL] using hdeep
    have h2 : b1.y < 150 := by linarith
    simp only [specClassify, if_pos h2, if_pos h1]

theorem ocean_band_scenario_witness :
    (defaultBiomeCell cell100).biome =
        some (if cell100.temp < 33 / 100 then Biome.COLDOCEAN
          else if cell100.temp < 66 / 100 then Biome.OCEAN else Biome.WARMOCEAN) ∧
      (defaultBiomeCell cell50).biome = some Biome.DEEPOCEAN :=
  ocean_band_scenario cell100 cell50 rfl (by norm_num [cell50, SEA_LEVEL])

/-- C7 (unit-step eviction and admission): when the visible set is the exact window of
radius `R ≥ 1` around the tracked centre `(cx, cz)` and the camera chunk is one unit
away along x, at `cx + s` with `s = ±1`, `getVisibleChunks` removes exactly the chunks
of the column `x = cx - s*R`, which are `2R+1` chunks, one per row of the window, keeps
every other visible chunk in place and in order, appends `2R+1` chunks whose coordinates
are the column `x = cx + s*(R+1)`, and moves the tracked centre to the camera chunk; and
symmetrically, with rows, for a unit move along z. -/
theorem unit_step (p5 : P5) (w : World) (s : Int) (hs : s = 1 ∨ s = -1)
    (hR : 1 ≤ w.renderDistance)
    (hwin : IsWindow w.renderDistance w.prevCamChunkX2 w.prevCamChunkZ2 w.visibleChunks) :
    ((floor (w.camX / CHUNK_SIZE) = w.prevCamChunkX2 + s ∧
        floor (w.camZ / CHUNK_SIZE) = w.prevCamChunkZ2) →
      (getVisibleChunks p5 w).prevCamChunkX2 = w.prevCamChunkX2 + s ∧
      (getVisibleChunks p5 w).prevCamChunkZ2 = w.prevCamChunkZ2 ∧
      ∃ added, (getVisibleChunks p5 w).visibleChunks =
          (w.visibleChunks.filter fun c =>
            decide (c.x ≠ w.prevCamChunkX2 - s * w.renderDistance)) ++ added ∧
        coords added =
          columnCoords w.renderDistance (w.prevCamChunkX2 + s * (w.renderDistance + 1))
            w.prevCamChunkZ2 ∧
        (added.length : Int) = 2 * w.renderDistance + 1 ∧
        (coords (w.visibleChunks.filter fun c =>
            decide (c.x = w.prevCamChunkX2 - s * w.renderDistance))).Perm
          (columnCoords w.renderDistance (w.prevCamChunkX2 - s * w.renderDistance)
            w.prevCamChunkZ2) ∧
        ((w.visibleChunks.filter fun c =>
            decide (c.x = w.prevCamChunkX2 - s * w.renderDistance)).length : Int) =
          2 * w.renderDistance + 1) ∧
    ((floor (w.camX / CHUNK_SIZE) = w.prevCamChunkX2 ∧
        floor (w.camZ / CHUNK_SIZE) = w.prevCamChunkZ2 + s) →
      (getVisibleChunks p5 w).prevCamChunkX2 = w.prevCamChunkX2 ∧
      (getVisibleChunks p5 w).prevCamChunkZ2 = w.prevCamChunkZ2 + s ∧
      ∃ added, (getVisibleChunks p5 w).visibleChunks =
          (w.visibleChunks.filter fun c =>
            decide (c.z ≠ w.prevCamChunkZ2 - s * w.renderDistance)) ++ added ∧
        coords added =
          rowCoords w.renderDistance w.prevCamChunkX2
            (w.prevCamChunkZ2 + s * (w.renderDistance + 1)) ∧
        (added.length : Int) = 2 * w.renderDistance + 1 ∧
        (coords (w.visibleChunks.filter fun c =>
            decide (c.z = w.prevCamChunkZ2 - s * w.renderDistance))).Perm
          (rowCoords w.renderDistance w.prevCamChunkX2
            (w.prevCamChunkZ2 - s * w.renderDistance)) ∧
        ((w.visibleChunks.filter fun c =>
            decide (c.z = w.prevCamChunkZ2 - s * w.renderDistance)).length : Int) =
          2 * w.renderDistance + 1) := by
  have hR0 : 0 ≤ w.renderDistance := by omega
  have hlen := isWindow_ne_nil _ _ _ _ hR0 hwin
  constructor
  · rintro ⟨hcx, hcz⟩
    have hrun : getVisibleChunks p5 w = stepX p5 w s := by
      unfold getVisibleChunks
      simp only
      rw [if_neg hlen, hcx, hcz, add_sub_cancel_left, sub_self]
      exact reconcile_unit_x p5 w s hs
    rw [hrun]
    obtain ⟨⟨_, _, a3, a4, _⟩, _⟩ := stepX_spec p5 w s (ne_zero_of_unit hs)
    exact ⟨a3, a4, window_step_x p5 w s hs hR0 hwin⟩
  · rintro ⟨hcx, hcz⟩
    have hrun : getVisibleChunks p5 w = stepZ p5 w s := by
      unfold getVisibleChunks
      simp only
      rw [if_neg hlen, hcx, hcz, add_sub_cancel_left, sub_self]
      exact reconcile_unit_z p5 w s hs
    rw [hrun]
    obtain ⟨⟨_, _, a3, a4, _⟩, _⟩ := stepZ_spec p5 w s (ne_zero_of_unit hs)
    exact ⟨a3, a4, window_step_z p5 w s hs hR0 hwin⟩

theorem unit_step_witness :
    (getVisibleChunks constP5 unitWorld).prevCamChunkX2 = 1 ∧
      (getVisibleChunks constP5 unitWorld).prevCamChunkZ2 = 0 ∧
      ∃ added, (getVisibleChunks constP5 unitWorld).visibleChunks =
          (unitWorld.visibleChunks.filter fun c => decide (c.x ≠ -1)) ++ added ∧
        coords added = [(2, -1), (2, 0), (2, 1)] ∧
        (added.length : Int) = 3 ∧
        (coords (unitWorld.visibleChunks.filter fun c => decide (c.x = -1))).Perm
          [(-1, -1), (-1, 0), (-1, 1)] ∧
        ((unitWorld.visibleChunks.filter fun c => decide (c.x = -1)).length : Int) = 3 :=
  (unit_step constP5 unitWorld 1 (Or.inl rfl) (by decide)
    ((isWindow_iff_perm 1 0 0 unitChunks).2 (by decide))).1
    ⟨by norm_num [floor, unitWorld, World.init, CHUNK_SIZE],
      by norm_num [floor, unitWorld, World.init, CHUNK_SIZE]⟩

/-- C8 (render-distance change): for a render distance in [1,100] and any integer change,
`changeRenderDistance` empties `visibleChunks` and sets the render distance to
`R' = constrain(R + change, 1, 100)`, which lies in [1,100]; the next `getVisibleChunks`
call, wherever the camera then is, fills `visibleChunks` with exactly the window of
radius `R'` around the camera chunk: `(2R'+1)^2` chunks, no coordinate twice. -/
theorem render_distance_change (p5 : P5) (w : World) (change : Int)
    (_hR : 1 ≤ w.renderDistance ∧ w.renderDistance ≤ 100) (cam : Rat × Rat) :
    (changeRenderDistance w change).visibleChunks = [] ∧
      (changeRenderDistance w change).renderDistance =
        constrainInt (w.renderDistance + change) 1 100 ∧
      1 ≤ (changeRenderDistance w change).renderDistance ∧
      (changeRenderDistance w change).renderDistance ≤ 100 ∧
      coords (frame p5 (changeRenderDistance w change) cam).visibleChunks =
        windowCoords (changeRenderDistance w change).renderDistance
          (floor (cam.1 / CHUNK_SIZE)) (floor (cam.2 / CHUNK_SIZE)) ∧
      IsWindow (changeRenderDistance w change).renderDistance
        (floor (cam.1 / CHUNK_SIZE)) (floor (cam.2 / CHUNK_SIZE))
        (frame p5 (changeRenderDistance w change) cam).visibleChunks ∧
      ((frame p5 (changeRenderDistance w change) cam).visibleChunks.length : Int) =
        (2 * (changeRenderDistance w change).renderDistance + 1) ^ 2 := by
  have hlo : 1 ≤ (changeRenderDistance w change).renderDistance := by
    simp only [changeRenderDistance, constrainInt]
    exact le_max_right _ _
  have hhi : (changeRenderDistance w change).renderDistance ≤ 100 := by
    simp only [changeRenderDistance, constrainInt]
    exact max_le (min_le_right _ _) (by decide)
  have hfill : coords (frame p5 (changeRenderDistance w change) cam).visibleChunks =
      windowCoords (changeRenderDistance w change).renderDistance
        (floor (cam.1 / CHUNK_SIZE)) (floor (cam.2 / CHUNK_SIZE)) := by
    unfold frame getVisibleChunks
    have h0 : (changeRenderDistance w change).visibleChunks.length = 0 := rfl
    simp only [h0, if_true]
    rw [(fillVisible_spec p5 _ _ _).2]
    rfl
  refine ⟨rfl, rfl, hlo, hhi, hfill, (isWindow_iff_perm _ _ _ _).2 (List.Perm.of_eq hfill), ?_⟩
  have hl : (frame p5 (changeRenderDistance w change) cam).visibleChunks.length =
      (2 * (changeRenderDistance w change).renderDistance + 1).toNat *
        (2 * (changeRenderDistance w change).renderDistance + 1).toNat := by
    rw [← length_windowCoords _ (floor (cam.1 / CHUNK_SIZE)) (floor (cam.2 / CHUNK_SIZE)),
      ← hfill]
    simp [coords]
  rw [hl, sq]
  push_cast
  rw [Int.toNat_of_nonneg (by omega)]

theorem render_distance_change_witness :
    (changeRenderDistance World.init (-5)).visibleChunks = [] ∧
      (changeRenderDistance World.init (-5)).renderDistance = 15 ∧
      1 ≤ (changeRenderDistance World.init (-5)).renderDistance ∧
      (changeRenderDistance World.init (-5)).renderDistance ≤ 100 ∧
      coords (frame constP5 (changeRenderDistance World.init (-5)) (40, 0)).visibleChunks =
        windowCoords 15 (floor (((40, 0) : Rat × Rat).1 / CHUNK_SIZE))
          (floor (((40, 0) : Rat × Rat).2 / CHUNK_SIZE)) ∧
      IsWindow 15 (floor (((40, 0) : Rat × Rat).1 / CHUNK_SIZE))
        (floor (((40, 0) : Rat × Rat).2 / CHUNK_SIZE))
        (frame constP5 (changeRenderDistance World.init (-5)) (40, 0)).visibleChunks ∧
      ((frame constP5 (changeRenderDistance World.init (-5)) (40, 0)).visibleChunks.length
        : Int) = 31 ^ 2 :=
  render_distance_change constP5 World.init (-5) (by decide) (40, 0)

/-- C9 (Flat mode): when `worldGenType` is 'Flat', every local cell `(xi, zi)` of
`[0,16) x [0,16)` of the chunk returned by `generateChunk` at any chunk coordinates holds
a block with elevation 150 (`SEA_LEVEL`), temperature 0.5, rainfall 0.5 and biome Plains,
whatever the noise field and `worldGenScale` are. -/
theorem flat_chunk (p5 : P5) (w : World) (chunkX chunkZ : Int) (xi zi : Nat)
    (hflat : w.worldGenType = "Flat") (hx : xi < CHUNK_SIZE) (hz : zi < CHUNK_SIZE) :
    ∃ b, (generateChunk p5 w chunkX chunkZ).1.blockAt xi zi = some b ∧
      b.y = SEA_LEVEL ∧ b.y = 150 ∧ b.temp = 5 / 10 ∧ b.rainfall = 5 / 10 ∧
      b.biome = some Biome.PLAINS := by
  rw [blockAt_natCast]
  simp only [generateChunk, hflat]
  obtain ⟨b, h1, h2, h3, h4, h5⟩ :=
    buildChunk_flat_gridAt p5 w.worldGenScale chunkX chunkZ xi zi hx hz
  exact ⟨b, h1, h2, h2, h3, h4, h5⟩

theorem flat_chunk_witness :
    ∃ b, (generateChunk constP5 flatWorld 7 (-4)).1.blockAt (0 : Nat) (15 : Nat) = some b ∧
      b.y = SEA_LEVEL ∧ b.y = 150 ∧ b.temp = 5 / 10 ∧ b.rainfall = 5 / 10 ∧
      b.biome = some Biome.PLAINS :=
  flat_chunk constP5 flatWorld 7 (-4) 0 15 rfl (by decide) (by decide)

/-- C10 (coordinate conversion): for every rational world coordinate, positive or
negative, `local = floor(world) - floor(world / 16) * 16` lies in [0,15] and
`floor(world / 16) * 16 + local = floor(world)`; hence, when every stored chunk was built
by `generateChunk` and the chunk under the screen position is stored,
`getBlockFromScreenPos` returns the entry `blocks[localX][localZ]` of that chunk, which
exists and is the block with world coordinates `(floor(worldX), floor(worldZ))`. -/
theorem coordinate_conversion (w : World) (screenX screenY : Rat)
    (hstore : ∀ c ∈ w.generatedChunks, ∃ p5 scale type, c = buildChunk p5 scale type c.x c.z) :
    (∀ world : Rat, 0 ≤ localCoord world ∧ localCoord world ≤ 15 ∧
        chunkCoord world * CHUNK_SIZE + localCoord world = floor world) ∧
      ∀ chunk,
        getGeneratedChunk w.generatedChunks
            (chunkCoord (screenToWorld w screenX width w.camX))
            (chunkCoord (screenToWorld w screenY height w.camZ)) = some chunk →
          ∃ b, getBlockFromScreenPos w screenX screenY = some b ∧
            chunk.blockAt (localCoord (screenToWorld w screenX width w.camX))
              (localCoord (screenToWorld w screenY height w.camZ)) = some b ∧
            b.x = floor (screenToWorld w screenX width w.camX) ∧
            b.z = floor (screenToWorld w screenY height w.camZ) := by
  refine ⟨localCoord_bounds, ?_⟩
  intro chunk hget
  obtain ⟨hmem, hcx, hcz⟩ := getGeneratedChunk_some hget
  obtain ⟨p5, scale, type, hbuilt⟩ := hstore chunk hmem
  obtain ⟨hx0, hx15, hxeq⟩ := localCoord_bounds (screenToWorld w screenX width w.camX)
  obtain ⟨hz0, hz15, hzeq⟩ := localCoord_bounds (screenToWorld w screenY height w.camZ)
  obtain ⟨b, hb, hbx, hbz⟩ := buildChunk_gridAt p5 scale type chunk.x chunk.z
    (localCoord (screenToWorld w screenX width w.camX)).toNat
    (localCoord (screenToWorld w screenY height w.camZ)).toNat
    (by simp only [CHUNK_SIZE]; omega) (by simp only [CHUNK_SIZE]; omega)
  rw [← hbuilt] at hb
  have hat : chunk.blockAt (localCoord (screenToWorld w screenX width w.camX))
      (localCoord (screenToWorld w screenY height w.camZ)) = some b := by
    unfold Chunk.blockAt
    rw [if_pos ⟨hx0, hz0⟩]
    exact hb
  refine ⟨b, ?_, hat, ?_, ?_⟩
  · unfold getBlockFromScreenPos chunkIsAlreadyGenerated
    simp only [hget, Option.isSome_some, Bool.not_true, Bool.false_eq_true, if_false]
    exact hat
  · rw [hbx, hcx, Int.toNat_of_nonneg hx0]
    exact hxeq
  · rw [hbz, hcz, Int.toNat_of_nonneg hz0]
    exact hzeq

theorem coordinate_conversion_witness :
    (∀ world : Rat, 0 ≤ localCoord world ∧ localCoord world ≤ 15 ∧
        chunkCoord world * CHUNK_SIZE + localCoord world = floor world) ∧
      ∀ chunk,
        getGeneratedChunk storedWorld.generatedChunks
            (chunkCoord (screenToWorld storedWorld 510 width storedWorld.camX))
            (chunkCoord (screenToWorld storedWorld 520 height storedWorld.camZ)) = some chunk →
          ∃ b, getBlockFromScreenPos storedWorld 510 520 = some b ∧
            chunk.blockAt (localCoord (screenToWorld storedWorld 510 width storedWorld.camX))
              (localCoord (screenToWorld storedWorld 520 height storedWorld.camZ)) = some b ∧
            b.x = floor (screenToWorld storedWorld 510 width storedWorld.camX) ∧
            b.z = floor (screenToWorld storedWorld 520 height storedWorld.camZ) :=
  coordinate_conversion storedWorld 510 520 (by
    intro c hc
    have hc1 : c = buildChunk constP5 (1 / 100) "Flat" 0 0 := by
      simpa [storedWorld, generateChunk, flatWorld, World.init] using hc
    exact ⟨constP5, 1 / 100, "Flat", by rw [hc1]; rfl⟩)

/-! ## Zenith elevation -/

theorem zenithHeightCell_y (p5 : P5) (scale : Rat) (chunkWorldX chunkWorldZ : Int)
    (xi zi : Nat) (b : Block) :
    (zenithHeightCell p5 scale chunkWorldX chunkWorldZ xi zi b).y =
      zenithElevation (zenithOceanElev p5 scale chunkWorldX chunkWorldZ xi zi)
        (zenithVariedRadius p5 chunkWorldX chunkWorldZ xi zi)
        (zenithDistFromCenter p5 chunkWorldX chunkWorldZ xi zi) := rfl

theorem zenithElevation_blend (o r d : Rat) (hr : 0 < r) (he : d - r < r / 4) :
    zenithElevation o r d = o + (150 - o) * (1 - max (d - r) 0 / (r / 4)) := by
  have h4 : 0 < r / 4 := by linarith
  have hmin : min (d - r) (r / 4) = d - r := min_eq_left he.le
  have hc : constrain (d - r) 0 (r / 4) < r / 4 := by
    unfold constrain
    rw [hmin]
    exact max_lt he h4
  simp only [zenithElevation, if_pos hc]
  simp only [constrain, hmin, map, SEA_LEVEL]
  ring

theorem zenithElevation_hold (o r d : Rat) (hr : 0 < r) (he : r / 4 ≤ d - r)
    (hfar : d - r - r / 4 < r * 3) : zenithElevation o r d = o := by
  have h4 : 0 < r / 4 := by linarith
  have hc : ¬ constrain (d - r) 0 (r / 4) < r / 4 := by
    unfold constrain
    rw [min_eq_right he, max_eq_left h4.le]
    exact lt_irrefl _
  simp only [zenithElevation, if_neg hc, if_pos hfar]

theorem zenithElevation_far (o r d : Rat) (hr : 0 < r) (he : r / 4 ≤ d - r)
    (hfar : ¬ d - r - r / 4 < r * 3) : zenithElevation o r d = 0 := by
  have h4 : 0 < r / 4 := by linarith
  have hc : ¬ constrain (d - r) 0 (r / 4) < r / 4 := by
    unfold constrain
    rw [min_eq_right he, max_eq_left h4.le]
    exact lt_irrefl _
  simp only [zenithElevation, if_neg hc, if_neg hfar, CHUNK_HEIGHT_MIN]

/-- In Zenith mode every cell holds its coordinates, the band elevation of its own ocean
floor, radius and distance, and the tag the tree gives for its values. -/
theorem buildChunk_zenith_gridAt (p5 : P5) (scale : Rat) (chunkX chunkZ : Int)
    (xi zi : Nat) (hx : xi < CHUNK_SIZE) (hz : zi < CHUNK_SIZE) :
    ∃ b, gridAt (buildChunk p5 scale "Zenith" chunkX chunkZ).blocks xi zi = some b ∧
      b.y = zenithElevation
        (zenithOceanElev p5 scale (chunkX * CHUNK_SIZE) (chunkZ * CHUNK_SIZE) xi zi)
        (zenithVariedRadius p5 (chunkX * CHUNK_SIZE) (chunkZ * CHUNK_SIZE) xi zi)
        (zenithDistFromCenter p5 (chunkX * CHUNK_SIZE) (chunkZ * CHUNK_SIZE) xi zi) ∧
      b.biome = some (specClassify b.y b.temp b.rainfall) := by
  unfold buildChunk
  have h1 : ¬ ("Zenith" = "Default") := by decide
  have h2 : ¬ ("Zenith" = "Flat") := by decide
  simp only [if_neg h1, if_neg h2, if_true]
  simp only [gridAt_mapBlocks, gridAt_createBlocks _ _ xi zi hx hz, Option.map_some']
  refine ⟨_, rfl, ?_, ?_⟩
  · rw [zenithBiomeCell_eq_defaultBiomeCell, defaultBiomeCell_y]
    rfl
  · rw [zenithBiomeCell_eq_defaultBiomeCell, defaultBiomeCell_biome, defaultBiomeCell_y,
      defaultBiomeCell_temp, defaultBiomeCell_rainfall]

theorem map_unit_range (n lo hi : Rat) (hn : 0 ≤ n ∧ n ≤ 1) (hlh : lo ≤ hi) :
    lo ≤ map n 0 1 lo hi ∧ map n 0 1 lo hi ≤ hi := by
  have e : map n 0 1 lo hi = n * (hi - lo) + lo := by
    unfold map
    ring
  rw [e]
  constructor
  · nlinarith [mul_nonneg hn.1 (sub_nonneg.2 hlh)]
  · nlinarith [mul_nonneg (sub_nonneg.2 hn.2) (sub_nonneg.2 hlh)]

theorem zenithElevation_range (o r d : Rat) (ho : 0 ≤ o ∧ o ≤ 75) (hr : 0 < r) :
    0 ≤ zenithElevation o r d ∧ zenithElevation o r d ≤ 150 ∧
      (d ≤ r → zenithElevation o r d = 150) ∧ (r < d → zenithElevation o r d < 150) := by
  have h4 : 0 < r / 4 := by linarith
  by_cases he : d - r < r / 4
  · rw [zenithElevation_blend o r d hr he]
    have ht0 : 0 ≤ max (d - r) 0 / (r / 4) := div_nonneg (le_max_right _ _) h4.le
    have ht1 : max (d - r) 0 / (r / 4) < 1 := by
      rw [div_lt_one h4]
      exact max_lt he h4
    refine ⟨?_, ?_, ?_, ?_⟩
    · nlinarith
    · nlinarith
    · intro hd
      rw [max_eq_right (by linarith)]
      simp
    · intro hd
      have hpos : 0 < max (d - r) 0 / (r / 4) :=
        div_pos (lt_max_of_lt_left (by linarith)) h4
      nlinarith
  · have he1 : r / 4 ≤ d - r := not_lt.1 he
    by_cases hfar : d - r - r / 4 < r * 3
    · rw [zenithElevation_hold o r d hr he1 hfar]
      exact ⟨ho.1, by linarith, fun hd => by linarith, fun _ => by linarith⟩
    · rw [zenithElevation_far o r d hr he1 hfar]
      exact ⟨le_refl _, by norm_num, fun hd => by linarith, fun _ => by norm_num⟩

theorem specClassify_land (y t r : Rat) (h1 : ¬ y < 150) (h2 : y < 300 / (14 / 10)) :
    landBiome t r = some (specClassify y t r) := by
  simp only [specClassify, landBiome, if_neg h1, if_pos h2]
  split_ifs <;> rfl

theorem specClassify_ocean (y t r : Rat) (h : y < 150) :
    specClassify y t r = Biome.DEEPOCEAN ∨ specClassify y t r = Biome.COLDOCEAN ∨
      specClassify y t r = Biome.OCEAN ∨ specClassify y t r = Biome.WARMOCEAN := by
  simp only [specClassify, if_pos h]
  split_ifs <;> simp

theorem specClassify_not_mountain (y t r : Rat) (h : y ≤ 150) :
    specClassify y t r ≠ Biome.MOUNTAINS ∧ specClassify y t r ≠ Biome.SNOWYPEAKS := by
  have h2 : y < 300 / (14 / 10) := by
    have : (150 : Rat) < 300 / (14 / 10) := by norm_num
    linarith
  by_cases h1 : y < 150
  · rcases specClassify_ocean y t r h1 with h | h | h | h <;> rw [h] <;>
      exact ⟨by decide, by decide⟩
  · have hl := specClassify_land y t r h1 h2
    unfold landBiome at hl
    constructor <;> intro hc <;> rw [hc] at hl <;> split_ifs at hl <;> simp at hl

theorem zenithVariedRadius_pos (p5 : P5) (hnoise : ∀ a b, 0 ≤ p5.noise a b ∧ p5.noise a b ≤ 1)
    (chunkWorldX chunkWorldZ : Int) (xi zi : Nat) :
    0 < zenithVariedRadius p5 chunkWorldX chunkWorldZ xi zi := by
  unfold zenithVariedRadius
  have h := map_unit_range (zenithEdgeNoise p5 chunkWorldX chunkWorldZ xi zi) (-1) 1
    (hnoise _ _) (by norm_num)
  linarith [h.1]

theorem zenithOceanElev_range (p5 : P5)
    (hnoise : ∀ a b, 0 ≤ p5.noise a b ∧ p5.noise a b ≤ 1)
    (scale : Rat) (chunkWorldX chunkWorldZ : Int) (xi zi : Nat) :
    0 ≤ zenithOceanElev p5 scale chunkWorldX chunkWorldZ xi zi ∧
      zenithOceanElev p5 scale chunkWorldX chunkWorldZ xi zi ≤ 75 := by
  unfold zenithOceanElev
  have h := map_unit_range
    (sampleNoise p5 chunkWorldX chunkWorldZ xi zi 56852 27384 scale) 0 75
    (hnoise _ _) (by norm_num)
  have e : SEA_LEVEL / 2 = 75 := by norm_num [SEA_LEVEL]
  rw [e, CHUNK_HEIGHT_MIN]
  exact h

/-! ## The iterations of the reconciliation loop -/

theorem reconcileLog_unfold (p5 : P5) (w : World) (dx dz : Int) :
    reconcileLog p5 w dx dz =
      if dx ≠ 0 then
        ((reconcileLog p5 (stepX p5 w (if dx > 0 then 1 else -1))
            (dx - (if dx > 0 then 1 else -1)) dz).1,
          Step.x (if dx > 0 then 1 else -1) ::
            (reconcileLog p5 (stepX p5 w (if dx > 0 then 1 else -1))
              (dx - (if dx > 0 then 1 else -1)) dz).2)
      else if dz ≠ 0 then
        ((reconcileLog p5 (stepZ p5 w (if dz > 0 then 1 else -1)) dx
            (dz - (if dz > 0 then 1 else -1))).1,
          Step.z (if dz > 0 then 1 else -1) ::
            (reconcileLog p5 (stepZ p5 w (if dz > 0 then 1 else -1)) dx
              (dz - (if dz > 0 then 1 else -1))).2)
      else (w, []) := by
  rw [reconcileLog]

/-- The logged loop computes the same globals as the loop. -/
theorem reconcileLog_fst (p5 : P5) (w : World) (dx dz : Int) :
    (reconcileLog p5 w dx dz).1 = reconcile p5 w dx dz := by
  obtain ⟨n, hn⟩ : ∃ n, dx.natAbs + dz.natAbs = n := ⟨_, rfl⟩
  induction n using Nat.strong_induction_on generalizing w dx dz with
  | _ n ih =>
    rw [reconcileLog_unfold, reconcile_unfold]
    by_cases h1 : dx ≠ 0
    · rw [if_pos h1, if_pos h1]
      have hlt := natAbs_sub_sign_lt dx h1
      exact ih _ (by omega) _ _ _ rfl
    · rw [if_neg h1, if_neg h1]
      by_cases h2 : dz ≠ 0
      · rw [if_pos h2, if_pos h2]
        have hlt := natAbs_sub_sign_lt dz h2
        exact ih _ (by omega) _ _ _ rfl
      · rw [if_neg h2, if_neg h2]

/-- Replaying the logged iterations from the start state gives the final globals. -/
theorem reconcileLog_replay (p5 : P5) (w : World) (dx dz : Int) :
    (reconcileLog p5 w dx dz).2.foldl (fun w st => st.apply p5 w) w =
      (reconcileLog p5 w dx dz).1 := by
  obtain ⟨n, hn⟩ : ∃ n, dx.natAbs + dz.natAbs = n := ⟨_, rfl⟩
  induction n using Nat.strong_induction_on generalizing w dx dz with
  | _ n ih =>
    rw [reconcileLog_unfold]
    by_cases h1 : dx ≠ 0
    · rw [if_pos h1]
      have hlt := natAbs_sub_sign_lt dx h1
      simp only [List.foldl_cons, Step.apply]
      exact ih _ (by omega) _ _ _ rfl
    · rw [if_neg h1]
      by_cases h2 : dz ≠ 0
      · rw [if_pos h2]
        have hlt := natAbs_sub_sign_lt dz h2
        simp only [List.foldl_cons, Step.apply]
        exact ih _ (by omega) _ _ _ rfl
      · rw [if_neg h2]
        rfl

theorem replicate_sub_sign {α : Type} (f : Int → α) (d : Int) (hd : d ≠ 0) :
    f (if d > 0 then 1 else -1) ::
        List.replicate (d - (if d > 0 then 1 else -1)).natAbs
          (f (if d - (if d > 0 then 1 else -1) > 0 then 1 else -1)) =
      List.replicate d.natAbs (f (if d > 0 then 1 else -1)) := by
  have hlt := natAbs_sub_sign_lt d hd
  obtain ⟨m, hm⟩ : ∃ m, d.natAbs = m + 1 := ⟨d.natAbs - 1, by omega⟩
  rw [hm, List.replicate_succ]
  congr 1
  by_cases h0 : d - (if d > 0 then 1 else -1) = 0
  · have hm0 : m = 0 := by
      have : (d - (if d > 0 then 1 else -1)).natAbs = 0 := by rw [h0]; rfl
      split_ifs at this <;> omega
    rw [h0, hm0]
    rfl
  · have hs : (if d - (if d > 0 then (1 : Int) else -1) > 0 then (1 : Int) else -1) =
        (if d > 0 then 1 else -1) := by
      split_ifs <;> first | rfl | omega
    have hl : (d - (if d > 0 then 1 else -1)).natAbs = m := by
      split_ifs <;> omega
    rw [hs, hl]

/-- The loop performs `|dx|` steps along x, then `|dz|` steps along z. -/
theorem reconcileLog_snd (p5 : P5) (w : World) (dx dz : Int) :
    (reconcileLog p5 w dx dz).2 =
      List.replicate dx.natAbs (Step.x (if dx > 0 then 1 else -1)) ++
        List.replicate dz.natAbs (Step.z (if dz > 0 then 1 else -1)) := by
  obtain ⟨n, hn⟩ : ∃ n, dx.natAbs + dz.natAbs = n := ⟨_, rfl⟩
  induction n using Nat.strong_induction_on generalizing w dx dz with
  | _ n ih =>
    rw [reconcileLog_unfold]
    by_cases h1 : dx ≠ 0
    · rw [if_pos h1]
      have hlt := natAbs_sub_sign_lt dx h1
      simp only
      rw [ih _ (by omega) _ _ _ rfl, ← List.cons_append, replicate_sub_sign Step.x dx h1]
    · rw [if_neg h1]
      have hdx : dx = 0 := not_not.1 h1
      by_cases h2 : dz ≠ 0
      · rw [if_pos h2]
        have hlt := natAbs_sub_sign_lt dz h2
        simp only
        rw [ih _ (by omega) _ _ _ rfl, hdx]
        simp only [Int.natAbs_zero, List.replicate_zero, List.nil_append]
        exact replicate_sub_sign Step.z dz h2
      · rw [if_neg h2]
        have hdz : dz = 0 := not_not.1 h2
        rw [hdx, hdz]
        rfl

/-! ## The store only grows -/

theorem apply_store_append (p5 : P5) (w : World) (op : Op) :
    ∃ extra, (op.apply p5 w).generatedChunks = w.generatedChunks ++ extra := by
  apply apply_store p5 (fun gs => ∃ extra, gs = w.generatedChunks ++ extra)
  · rintro gs scale type x z ⟨extra, rfl⟩ _
    exact ⟨extra ++ [buildChunk p5 scale type x z], by rw [List.append_assoc]⟩
  · exact ⟨[], by simp⟩

theorem runOps_store_append (p5 : P5) (w : World) (ops : List Op) :
    ∃ extra, (runOps p5 w ops).generatedChunks = w.generatedChunks ++ extra := by
  unfold runOps
  apply foldl_inv (fun w1 => ∃ extra, w1.generatedChunks = w.generatedChunks ++ extra)
  · rintro w1 op ⟨extra, h⟩
    obtain ⟨extra1, h1⟩ := apply_store_append p5 w1 op
    exact ⟨extra ++ extra1, by rw [h1, h, List.append_assoc]⟩
  · exact ⟨[], by simp⟩

theorem buildChunk_biome_gridAt (p5 : P5) (scale : Rat) (type : String)
    (htype : type = "Default" ∨ type = "Flat" ∨ type = "Zenith") (chunkX chunkZ : Int)
    (xi zi : Nat) (hx : xi < CHUNK_SIZE) (hz : zi < CHUNK_SIZE) :
    ∃ b, gridAt (buildChunk p5 scale type chunkX chunkZ).blocks xi zi = some b ∧
      b.x = chunkX * CHUNK_SIZE + xi ∧ b.z = chunkZ * CHUNK_SIZE + zi ∧
      ∃ t, b.biome = some t := by
  obtain ⟨b, hb, hbx, hbz⟩ := buildChunk_gridAt p5 scale type chunkX chunkZ xi zi hx hz
  refine ⟨b, hb, hbx, hbz, ?_⟩
  rcases htype with h | h | h
  · subst h
    obtain ⟨b1, hb1, hbio⟩ := buildChunk_default_gridAt p5 scale chunkX chunkZ xi zi hx hz
    rw [hb] at hb1
    injection hb1 with hb1
    subst hb1
    exact ⟨_, hbio⟩
  · subst h
    obtain ⟨b1, hb1, _, _, _, hbio⟩ :=
      buildChunk_flat_gridAt p5 scale chunkX chunkZ xi zi hx hz
    rw [hb] at hb1
    injection hb1 with hb1
    subst hb1
    exact ⟨_, hbio⟩
  · subst h
    obtain ⟨b1, hb1, _, hbio⟩ := buildChunk_zenith_gridAt p5 scale chunkX chunkZ xi zi hx hz
    rw [hb] at hb1
    injection hb1 with hb1
    subst hb1
    exact ⟨_, hbio⟩

/-- C11 (chunk population): in each of the modes Default, Flat and Zenith, for all integer
chunk coordinates, the chunk returned by `generateChunk` has `x = chunkX`, `z = chunkZ`
and, for every `(xi, zi)` of `[0,16) x [0,16)`, a block at `blocks[xi][zi]` with
`x = chunkX*16 + xi`, `z = chunkZ*16 + zi` and a biome that is not `null`; the chunk is
complete when it is pushed: it is the value built before the push, and the push appends
exactly it to `generatedChunks`. -/
theorem chunk_population (p5 : P5) (w : World) (chunkX chunkZ : Int) (xi zi : Nat)
    (hmode : w.worldGenType = "Default" ∨ w.worldGenType = "Flat" ∨
      w.worldGenType = "Zenith")
    (hx : xi < CHUNK_SIZE) (hz : zi < CHUNK_SIZE) :
    (generateChunk p5 w chunkX chunkZ).1.x = chunkX ∧
      (generateChunk p5 w chunkX chunkZ).1.z = chunkZ ∧
      (generateChunk p5 w chunkX chunkZ).1 =
        buildChunk p5 w.worldGenScale w.worldGenType chunkX chunkZ ∧
      (generateChunk p5 w chunkX chunkZ).2.generatedChunks =
        w.generatedChunks ++ [(generateChunk p5 w chunkX chunkZ).1] ∧
      ∃ b, (generateChunk p5 w chunkX chunkZ).1.blockAt xi zi = some b ∧
        b.x = chunkX * CHUNK_SIZE + xi ∧ b.z = chunkZ * CHUNK_SIZE + zi ∧
        b.biome ≠ none := by
  refine ⟨rfl, rfl, rfl, rfl, ?_⟩
  rw [blockAt_natCast]
  obtain ⟨b, hb, hbx, hbz, t, ht⟩ := buildChunk_biome_gridAt p5 w.worldGenScale
    w.worldGenType hmode chunkX chunkZ xi zi hx hz
  exact ⟨b, hb, hbx, hbz, by rw [ht]; simp⟩

theorem chunk_population_witness :
    (generateChunk constP5 zenithWorld (-3) 4).1.x = -3 ∧
      (generateChunk constP5 zenithWorld (-3) 4).1.z = 4 ∧
      (generateChunk constP5 zenithWorld (-3) 4).1 =
        buildChunk constP5 zenithWorld.worldGenScale zenithWorld.worldGenType (-3) 4 ∧
      (generateChunk constP5 zenithWorld (-3) 4).2.generatedChunks =
        zenithWorld.generatedChunks ++ [(generateChunk constP5 zenithWorld (-3) 4).1] ∧
      ∃ b, (generateChunk constP5 zenithWorld (-3) 4).1.blockAt (7 : Nat) (0 : Nat) = some b ∧
        b.x = -3 * CHUNK_SIZE + (7 : Nat) ∧ b.z = 4 * CHUNK_SIZE + (0 : Nat) ∧
        b.biome ≠ none :=
  chunk_population constP5 zenithWorld (-3) 4 7 0 (Or.inr (Or.inr rfl)) (by decide)
    (by decide)

/-- C12 (side-effect-free lookup): `getGeneratedChunk` returns `null` exactly when no
stored chunk has the coordinates, and otherwise a chunk of `generatedChunks` whose `x`
and `z` are the arguments; `chunkIsAlreadyGenerated` is true exactly when such a chunk is
stored; `getChunkFromWorldPos` is that lookup at the chunk coordinates of the position.
The three are functions of the store alone: they return a result and no new globals. -/
theorem lookup_is_pure (w : World) (chunkX chunkZ : Int) (worldX worldZ : Rat) :
    (getGeneratedChunk w.generatedChunks chunkX chunkZ = none ↔
        ∀ c ∈ w.generatedChunks, ¬ (c.x = chunkX ∧ c.z = chunkZ)) ∧
      (∀ c, getGeneratedChunk w.generatedChunks chunkX chunkZ = some c →
        c ∈ w.generatedChunks ∧ c.x = chunkX ∧ c.z = chunkZ) ∧
      (chunkIsAlreadyGenerated w.generatedChunks chunkX chunkZ = true ↔
        ∃ c ∈ w.generatedChunks, c.x = chunkX ∧ c.z = chunkZ) ∧
      (chunkIsAlreadyGenerated w.generatedChunks chunkX chunkZ = false ↔
        getGeneratedChunk w.generatedChunks chunkX chunkZ = none) ∧
      getChunkFromWorldPos w worldX worldZ =
        getGeneratedChunk w.generatedChunks (floor (worldX / CHUNK_SIZE))
          (floor (worldZ / CHUNK_SIZE)) ∧
      (getChunkFromWorldPos w worldX worldZ = none ↔
        ∀ c ∈ w.generatedChunks,
          ¬ (c.x = floor (worldX / CHUNK_SIZE) ∧ c.z = floor (worldZ / CHUNK_SIZE))) := by
  have hnone : ∀ x z : Int, getGeneratedChunk w.generatedChunks x z = none ↔
      ∀ c ∈ w.generatedChunks, ¬ (c.x = x ∧ c.z = z) := by
    intro x z
    unfold getGeneratedChunk
    rw [List.find?_eq_none]
    simp only [decide_eq_true_eq]
  refine ⟨hnone _ _, fun c hc => getGeneratedChunk_some hc, ?_, ?_, rfl, hnone _ _⟩
  · unfold chunkIsAlreadyGenerated
    rw [Option.isSome_iff_exists]
    constructor
    · rintro ⟨c, hc⟩
      exact ⟨c, getGeneratedChunk_some hc⟩
    · rintro ⟨c, hc, hxz⟩
      cases hget : getGeneratedChunk w.generatedChunks chunkX chunkZ with
      | none => exact absurd hxz ((hnone _ _).1 hget c hc)
      | some c1 => exact ⟨c1, rfl⟩
  · unfold chunkIsAlreadyGenerated
    cases getGeneratedChunk w.generatedChunks chunkX chunkZ <;> simp

/-- C13 (render distance never invalid): for a render distance in [1,100] and any integer
change, after `changeRenderDistance(change)` the render distance is
`min(100, max(1, old + change))`, an integer between 1 and 100, so a value of 0 or below
is never stored; `recreateWorld` resets it to 20. -/
theorem render_distance_valid (w : World) (change : Int)
    (_hR : 1 ≤ w.renderDistance ∧ w.renderDistance ≤ 100) :
    1 ≤ (changeRenderDistance w change).renderDistance ∧
      (changeRenderDistance w change).renderDistance ≤ 100 ∧
      (changeRenderDistance w change).renderDistance =
        min 100 (max 1 (w.renderDistance + change)) ∧
      (recreateWorld w).renderDistance = 20 := by
  have e : (changeRenderDistance w change).renderDistance =
      max (min (w.renderDistance + change) 100) 1 := rfl
  rw [e]
  refine ⟨le_max_right _ _, max_le (min_le_right _ _) (by decide), ?_, rfl⟩
  simp only [max_def, min_def]
  split_ifs <;> omega

theorem render_distance_valid_witness :
    1 ≤ (changeRenderDistance World.init (-25)).renderDistance ∧
      (changeRenderDistance World.init (-25)).renderDistance ≤ 100 ∧
      (changeRenderDistance World.init (-25)).renderDistance =
        min 100 (max 1 (World.init.renderDistance + -25)) ∧
      (recreateWorld World.init).renderDistance = 20 :=
  render_distance_valid World.init (-25) (by decide)

/-- C14 (Zenith elevation bands): with wobbled radius `r > 0`, distance `d` from the
origin, edge distance `e = d - r` and ocean-floor elevation `o`, the Zenith elevation is
`o + (150 - o) * (1 - max(e, 0) / (r/4))` when `e < r/4`, `o` when `r/4 ≤ e` and
`e - r/4 < 3r`, and 0 otherwise; the elevation stored in every cell of a Zenith chunk is
this function of the cell's own `o`, `r` and `d`, where `o` is 75 times the noise. -/
theorem zenith_elevation_bands (p5 : P5) (scale : Rat) (chunkX chunkZ : Int) (xi zi : Nat)
    (o r d : Rat) (hr : 0 < r) (hx : xi < CHUNK_SIZE) (hz : zi < CHUNK_SIZE) :
    (d - r < r / 4 →
        zenithElevation o r d = o + (150 - o) * (1 - max (d - r) 0 / (r / 4))) ∧
      (r / 4 ≤ d - r → d - r - r / 4 < 3 * r → zenithElevation o r d = o) ∧
      (r / 4 ≤ d - r → ¬ (d - r - r / 4 < 3 * r) → zenithElevation o r d = 0) ∧
      (∃ b, gridAt (buildChunk p5 scale "Zenith" chunkX chunkZ).blocks xi zi = some b ∧
        b.y = zenithElevation
          (zenithOceanElev p5 scale (chunkX * CHUNK_SIZE) (chunkZ * CHUNK_SIZE) xi zi)
          (zenithVariedRadius p5 (chunkX * CHUNK_SIZE) (chunkZ * CHUNK_SIZE) xi zi)
          (zenithDistFromCenter p5 (chunkX * CHUNK_SIZE) (chunkZ * CHUNK_SIZE) xi zi)) ∧
      zenithOceanElev p5 scale (chunkX * CHUNK_SIZE) (chunkZ * CHUNK_SIZE) xi zi =
        75 * sampleNoise p5 (chunkX * CHUNK_SIZE) (chunkZ * CHUNK_SIZE) xi zi 56852 27384
          scale := by
  refine ⟨zenithElevation_blend o r d hr, ?_, ?_, ?_, ?_⟩
  · intro he hfar
    exact zenithElevation_hold o r d hr he (by linarith)
  · intro he hfar
    exact zenithElevation_far o r d hr he (fun h => hfar (by linarith))
  · obtain ⟨b, hb, hy, _⟩ := buildChunk_zenith_gridAt p5 scale chunkX chunkZ xi zi hx hz
    exact ⟨b, hb, hy⟩
  · simp only [zenithOceanElev, map, SEA_LEVEL, CHUNK_HEIGHT_MIN]
    ring

theorem zenith_elevation_bands_witness :
    ((510 : Rat) - 500 < 500 / 4 →
        zenithElevation 30 500 510 = 30 + (150 - 30) * (1 - max (510 - 500) 0 / (500 / 4))) ∧
      ((500 : Rat) / 4 ≤ 510 - 500 → (510 : Rat) - 500 - 500 / 4 < 3 * 500 →
        zenithElevation 30 500 510 = 30) ∧
      ((500 : Rat) / 4 ≤ 510 - 500 → ¬ ((510 : Rat) - 500 - 500 / 4 < 3 * 500) →
        zenithElevation 30 500 510 = 0) ∧
      (∃ b, gridAt (buildChunk constP5 (1 / 100) "Zenith" 2 (-1)).blocks 3 4 = some b ∧
        b.y = zenithElevation
          (zenithOceanElev constP5 (1 / 100) (2 * CHUNK_SIZE) (-1 * CHUNK_SIZE) 3 4)
          (zenithVariedRadius constP5 (2 * CHUNK_SIZE) (-1 * CHUNK_SIZE) 3 4)
          (zenithDistFromCenter constP5 (2 * CHUNK_SIZE) (-1 * CHUNK_SIZE) 3 4)) ∧
      zenithOceanElev constP5 (1 / 100) (2 * CHUNK_SIZE) (-1 * CHUNK_SIZE) 3 4 =
        75 * sampleNoise constP5 (2 * CHUNK_SIZE) (-1 * CHUNK_SIZE) 3 4 56852 27384
          (1 / 100) :=
  zenith_elevation_bands constP5 (1 / 100) 2 (-1) 3 4 30 500 510 (by norm_num) (by decide)
    (by decide)

/-- C15 (append-only store): after `getVisibleChunks`, `getVisibleChunksO` or
`changeRenderDistance` (or a camera move), and after any sequence of them, the previous
content of `generatedChunks` is a prefix of the new content: nothing stored is removed,
replaced or reordered; `recreateWorld` leaves `generatedChunks` and `visibleChunks`
empty. -/
theorem store_append_only (p5 : P5) (w : World) (op : Op) (ops : List Op) :
    (∃ extra, (op.apply p5 w).generatedChunks = w.generatedChunks ++ extra) ∧
      (∃ extra, (runOps p5 w ops).generatedChunks = w.generatedChunks ++ extra) ∧
      (recreateWorld w).generatedChunks = [] ∧ (recreateWorld w).visibleChunks = [] :=
  ⟨apply_store_append p5 w op, runOps_store_append p5 w ops, rfl, rfl⟩

/-- C16 (stepwise reconciliation): for a non-empty visible set and the delta `(dx, dz)`
between the camera chunk and the tracked centre, the `while` loop of `getVisibleChunks`
ends after exactly `|dx| + |dz|` iterations, which are `|dx|` unit steps along x in the
direction of `dx` followed by `|dz|` unit steps along z in the direction of `dz`, and on
exit the tracked centre is the camera chunk. -/
theorem reconcile_order (p5 : P5) (w : World) (hne : w.visibleChunks ≠ []) :
    getVisibleChunks p5 w =
        (reconcileLog p5 w (floor (w.camX / CHUNK_SIZE) - w.prevCamChunkX2)
          (floor (w.camZ / CHUNK_SIZE) - w.prevCamChunkZ2)).1 ∧
      (reconcileLog p5 w (floor (w.camX / CHUNK_SIZE) - w.prevCamChunkX2)
          (floor (w.camZ / CHUNK_SIZE) - w.prevCamChunkZ2)).2 =
        List.replicate (floor (w.camX / CHUNK_SIZE) - w.prevCamChunkX2).natAbs
            (Step.x (if floor (w.camX / CHUNK_SIZE) - w.prevCamChunkX2 > 0 then 1 else -1)) ++
          List.replicate (floor (w.camZ / CHUNK_SIZE) - w.prevCamChunkZ2).natAbs
            (Step.z (if floor (w.camZ / CHUNK_SIZE) - w.prevCamChunkZ2 > 0 then 1 else -1)) ∧
      (reconcileLog p5 w (floor (w.camX / CHUNK_SIZE) - w.prevCamChunkX2)
          (floor (w.camZ / CHUNK_SIZE) - w.prevCamChunkZ2)).2.length =
        (floor (w.camX / CHUNK_SIZE) - w.prevCamChunkX2).natAbs +
          (floor (w.camZ / CHUNK_SIZE) - w.prevCamChunkZ2).natAbs ∧
      (reconcileLog p5 w (floor (w.camX / CHUNK_SIZE) - w.prevCamChunkX2)
          (floor (w.camZ / CHUNK_SIZE) - w.prevCamChunkZ2)).2.foldl
          (fun w st => st.apply p5 w) w = getVisibleChunks p5 w ∧
      (getVisibleChunks p5 w).prevCamChunkX2 = floor (w.camX / CHUNK_SIZE) ∧
      (getVisibleChunks p5 w).prevCamChunkZ2 = floor (w.camZ / CHUNK_SIZE) := by
  have hlen : ¬ w.visibleChunks.length = 0 := fun h => hne (List.length_eq_zero.1 h)
  have hrun : getVisibleChunks p5 w =
      (reconcileLog p5 w (floor (w.camX / CHUNK_SIZE) - w.prevCamChunkX2)
        (floor (w.camZ / CHUNK_SIZE) - w.prevCamChunkZ2)).1 := by
    rw [reconcileLog_fst]
    unfold getVisibleChunks
    simp only
    rw [if_neg hlen]
  have hlog := reconcileLog_snd p5 w (floor (w.camX / CHUNK_SIZE) - w.prevCamChunkX2)
    (floor (w.camZ / CHUNK_SIZE) - w.prevCamChunkZ2)
  obtain ⟨_, _, a3, a4, _⟩ := reconcile_frame p5 w
    (floor (w.camX / CHUNK_SIZE) - w.prevCamChunkX2)
    (floor (w.camZ / CHUNK_SIZE) - w.prevCamChunkZ2)
  simp only at a3 a4
  refine ⟨hrun, hlog, ?_, ?_, ?_, ?_⟩
  · rw [hlog, List.length_append, List.length_replicate, List.length_replicate]
  · rw [hrun]
    exact reconcileLog_replay p5 w _ _
  · rw [hrun, reconcileLog_fst, a3]
    ring
  · rw [hrun, reconcileLog_fst, a4]
    ring

theorem reconcile_order_witness :
    getVisibleChunks constP5 unitWorld =
        (reconcileLog constP5 unitWorld
          (floor (unitWorld.camX / CHUNK_SIZE) - unitWorld.prevCamChunkX2)
          (floor (unitWorld.camZ / CHUNK_SIZE) - unitWorld.prevCamChunkZ2)).1 ∧
      (reconcileLog constP5 unitWorld
          (floor (unitWorld.camX / CHUNK_SIZE) - unitWorld.prevCamChunkX2)
          (floor (unitWorld.camZ / CHUNK_SIZE) - unitWorld.prevCamChunkZ2)).2 =
        List.replicate (floor (unitWorld.camX / CHUNK_SIZE) - unitWorld.prevCamChunkX2).natAbs
            (Step.x (if floor (unitWorld.camX / CHUNK_SIZE) - unitWorld.prevCamChunkX2 > 0
              then 1 else -1)) ++
          List.replicate (floor (unitWorld.camZ / CHUNK_SIZE) - unitWorld.prevCamChunkZ2).natAbs
            (Step.z (if floor (unitWorld.camZ / CHUNK_SIZE) - unitWorld.prevCamChunkZ2 > 0
              then 1 else -1)) ∧
      (reconcileLog constP5 unitWorld
          (floor (unitWorld.camX / CHUNK_SIZE) - unitWorld.prevCamChunkX2)
          (floor (unitWorld.camZ / CHUNK_SIZE) - unitWorld.prevCamChunkZ2)).2.length =
        (floor (unitWorld.camX / CHUNK_SIZE) - unitWorld.prevCamChunkX2).natAbs +
          (floor (unitWorld.camZ / CHUNK_SIZE) - unitWorld.prevCamChunkZ2).natAbs ∧
      (reconcileLog constP5 unitWorld
          (floor (unitWorld.camX / CHUNK_SIZE) - unitWorld.prevCamChunkX2)
          (floor (unitWorld.camZ / CHUNK_SIZE) - unitWorld.prevCamChunkZ2)).2.foldl
          (fun w st => st.apply constP5 w) unitWorld = getVisibleChunks constP5 unitWorld ∧
      (getVisibleChunks constP5 unitWorld).prevCamChunkX2 =
        floor (unitWorld.camX / CHUNK_SIZE) ∧
      (getVisibleChunks constP5 unitWorld).prevCamChunkZ2 =
        floor (unitWorld.camZ / CHUNK_SIZE) :=
  reconcile_order constP5 unitWorld (by decide)

/-- A block whose elevation is the Zenith elevation for an ocean floor in [0,75], a radius
`r > 0` and a distance `d`: range of the elevation and band of the biome. -/
theorem zenith_block_bands (o r d : Rat) (b : Block) (ho : 0 ≤ o ∧ o ≤ 75) (hr : 0 < r)
    (hb : b.y = zenithElevation o r d) :
    0 ≤ b.y ∧ b.y ≤ SEA_LEVEL ∧
      (zenithBiomeCell b).biome ≠ some Biome.MOUNTAINS ∧
      (zenithBiomeCell b).biome ≠ some Biome.SNOWYPEAKS ∧
      (d ≤ r → b.y = SEA_LEVEL ∧ (zenithBiomeCell b).biome = landBiome b.temp b.rainfall) ∧
      (r < d → b.y < SEA_LEVEL ∧
        ((zenithBiomeCell b).biome = some Biome.DEEPOCEAN ∨
          (zenithBiomeCell b).biome = some Biome.COLDOCEAN ∨
          (zenithBiomeCell b).biome = some Biome.OCEAN ∨
          (zenithBiomeCell b).biome = some Biome.WARMOCEAN)) := by
  obtain ⟨h0, h150, hin, hout⟩ := zenithElevation_range o r d ho hr
  rw [← hb] at h0 h150 hin hout
  have hbio : (zenithBiomeCell b).biome = some (specClassify b.y b.temp b.rainfall) := by
    rw [zenithBiomeCell_eq_defaultBiomeCell]
    exact defaultBiomeCell_biome b
  have hnm := specClassify_not_mountain b.y b.temp b.rainfall h150
  have hsea : SEA_LEVEL = 150 := rfl
  rw [hsea]
  refine ⟨h0, h150, ?_, ?_, ?_, ?_⟩
  · rw [hbio]
    exact fun h => hnm.1 (Option.some.inj h)
  · rw [hbio]
    exact fun h => hnm.2 (Option.some.inj h)
  · intro hd
    refine ⟨hin hd, ?_⟩
    rw [hbio, specClassify_land b.y b.temp b.rainfall (by rw [hin hd]; norm_num)
      (by rw [hin hd]; norm_num)]
  · intro hd
    refine ⟨hout hd, ?_⟩
    rw [hbio]
    rcases specClassify_ocean b.y b.temp b.rainfall (hout hd) with h | h | h | h <;>
      rw [h] <;> simp

/-- The biome stored in a cell of a Zenith chunk is the one the Zenith biome loop gives
for the cell's stored values. -/
theorem zenith_stored_biome (c : Block)
    (hc : c.biome = some (specClassify c.y c.temp c.rainfall)) :
    (zenithBiomeCell c).biome = c.biome := by
  rw [hc, zenithBiomeCell_eq_defaultBiomeCell]
  exact defaultBiomeCell_biome c

/-- C17 (Zenith never produces mountains): when the noise field takes its values in
[0,1], every cell of every chunk that `generateChunk` builds in Zenith mode stores the
Zenith elevation of its own ocean floor, wobbled radius `r` and distance `d` from the
origin, with `r > 0`; that elevation lies in [0,150]; the cell is never Mountains or
SnowyPeaks; when `d ≤ r` the elevation is exactly 150 and the biome is the land-band biome
of the cell's temperature and rainfall; when `d > r` the elevation is below 150 and the
biome is DeepOcean, ColdOcean, Ocean or WarmOcean. The same holds for every noise value
in [0,1], radius `r > 0` and distance `d ≥ 0`, for any block with that elevation. -/
theorem zenith_no_mountains (p5 : P5)
    (hnoise : ∀ u v, 0 ≤ p5.noise u v ∧ p5.noise u v ≤ 1) :
    (∀ (scale : Rat) (chunkX chunkZ : Int) (xi zi : Nat),
        xi < CHUNK_SIZE → zi < CHUNK_SIZE →
        ∃ c, gridAt (buildChunk p5 scale "Zenith" chunkX chunkZ).blocks xi zi = some c ∧
          c.y = zenithElevation
            (zenithOceanElev p5 scale (chunkX * CHUNK_SIZE) (chunkZ * CHUNK_SIZE) xi zi)
            (zenithVariedRadius p5 (chunkX * CHUNK_SIZE) (chunkZ * CHUNK_SIZE) xi zi)
            (zenithDistFromCenter p5 (chunkX * CHUNK_SIZE) (chunkZ * CHUNK_SIZE) xi zi) ∧
          0 < zenithVariedRadius p5 (chunkX * CHUNK_SIZE) (chunkZ * CHUNK_SIZE) xi zi ∧
          0 ≤ c.y ∧ c.y ≤ SEA_LEVEL ∧ c.biome ≠ none ∧
          c.biome ≠ some Biome.MOUNTAINS ∧ c.biome ≠ some Biome.SNOWYPEAKS ∧
          (zenithDistFromCenter p5 (chunkX * CHUNK_SIZE) (chunkZ * CHUNK_SIZE) xi zi ≤
              zenithVariedRadius p5 (chunkX * CHUNK_SIZE) (chunkZ * CHUNK_SIZE) xi zi →
            c.y = SEA_LEVEL ∧ c.biome = landBiome c.temp c.rainfall) ∧
          (zenithVariedRadius p5 (chunkX * CHUNK_SIZE) (chunkZ * CHUNK_SIZE) xi zi <
              zenithDistFromCenter p5 (chunkX * CHUNK_SIZE) (chunkZ * CHUNK_SIZE) xi zi →
            c.y < SEA_LEVEL ∧
            (c.biome = some Biome.DEEPOCEAN ∨ c.biome = some Biome.COLDOCEAN ∨
              c.biome = some Biome.OCEAN ∨ c.biome = some Biome.WARMOCEAN))) ∧
      ∀ (n r d : Rat) (b : Block), (0 ≤ n ∧ n ≤ 1) → 0 < r → 0 ≤ d →
        b.y = zenithElevation (map n 0 1 CHUNK_HEIGHT_MIN (SEA_LEVEL / 2)) r d →
        0 ≤ b.y ∧ b.y ≤ SEA_LEVEL ∧
          (zenithBiomeCell b).biome ≠ some Biome.MOUNTAINS ∧
          (zenithBiomeCell b).biome ≠ some Biome.SNOWYPEAKS ∧
          (d ≤ r → b.y = SEA_LEVEL ∧
            (zenithBiomeCell b).biome = landBiome b.temp b.rainfall) ∧
          (r < d → b.y < SEA_LEVEL ∧
            ((zenithBiomeCell b).biome = some Biome.DEEPOCEAN ∨
              (zenithBiomeCell b).biome = some Biome.COLDOCEAN ∨
              (zenithBiomeCell b).biome = some Biome.OCEAN ∨
              (zenithBiomeCell b).biome = some Biome.WARMOCEAN)) := by
  constructor
  · intro scale chunkX chunkZ xi zi hx hz
    obtain ⟨c, hc, hy, hcb⟩ := buildChunk_zenith_gridAt p5 scale chunkX chunkZ xi zi hx hz
    have hrpos := zenithVariedRadius_pos p5 hnoise (chunkX * CHUNK_SIZE)
      (chunkZ * CHUNK_SIZE) xi zi
    obtain ⟨h0, h150, hm, hs, hin, hout⟩ := zenith_block_bands _ _ _ c
      (zenithOceanElev_range p5 hnoise scale (chunkX * CHUNK_SIZE) (chunkZ * CHUNK_SIZE)
        xi zi) hrpos hy
    rw [zenith_stored_biome c hcb] at hm hs hin hout
    exact ⟨c, hc, hy, hrpos, h0, h150, by rw [hcb]; simp, hm, hs, hin, hout⟩
  · intro n r d b hn hr _ hb
    have ho : 0 ≤ map n 0 1 CHUNK_HEIGHT_MIN (SEA_LEVEL / 2) ∧
        map n 0 1 CHUNK_HEIGHT_MIN (SEA_LEVEL / 2) ≤ 75 := by
      have h := map_unit_range n 0 75 hn (by norm_num)
      have e : SEA_LEVEL / 2 = 75 := by norm_num [SEA_LEVEL]
      rw [e, CHUNK_HEIGHT_MIN]
      exact h
    exact zenith_block_bands _ r d b ho hr hb

theorem zenith_no_mountains_witness :
    (∃ c, gridAt (buildChunk axisP5 (1 / 100) "Zenith" 0 0).blocks 3 0 = some c ∧
        c.y = SEA_LEVEL ∧ c.biome = landBiome c.temp c.rainfall ∧
        c.biome ≠ some Biome.MOUNTAINS ∧ c.biome ≠ some Biome.SNOWYPEAKS) ∧
      (∃ c, gridAt (buildChunk axisP5 (1 / 100) "Zenith" 40 0).blocks 0 0 = some c ∧
        c.y < SEA_LEVEL ∧
        (c.biome = some Biome.DEEPOCEAN ∨ c.biome = some Biome.COLDOCEAN ∨
          c.biome = some Biome.OCEAN ∨ c.biome = some Biome.WARMOCEAN) ∧
        c.biome ≠ some Biome.MOUNTAINS ∧ c.biome ≠ some Biome.SNOWYPEAKS) ∧
      (zenithInnerCell.y = SEA_LEVEL ∧
        (zenithBiomeCell zenithInnerCell).biome =
          landBiome zenithInnerCell.temp zenithInnerCell.rainfall) ∧
      (zenithCell.y < SEA_LEVEL ∧
        ((zenithBiomeCell zenithCell).biome = some Biome.DEEPOCEAN ∨
          (zenithBiomeCell zenithCell).biome = some Biome.COLDOCEAN ∨
          (zenithBiomeCell zenithCell).biome = some Biome.OCEAN ∨
          (zenithBiomeCell zenithCell).biome = some Biome.WARMOCEAN)) := by
  have hnoise : ∀ u v : Rat, 0 ≤ axisP5.noise u v ∧ axisP5.noise u v ≤ 1 :=
    fun _ _ => by norm_num [axisP5]
  have hthm := zenith_no_mountains axisP5 hnoise
  refine ⟨?_, ?_, ?_, ?_⟩
  · obtain ⟨c, hc, _, _, _, _, _, hm, hs, hin, _⟩ :=
      hthm.1 (1 / 100) 0 0 3 0 (by decide) (by decide)
    have hd : zenithDistFromCenter axisP5 (0 * CHUNK_SIZE) (0 * CHUNK_SIZE) 3 0 ≤
        zenithVariedRadius axisP5 (0 * CHUNK_SIZE) (0 * CHUNK_SIZE) 3 0 := by
      norm_num [zenithDistFromCenter, zenithVariedRadius, zenithEdgeNoise, axisP5, map,
        CHUNK_SIZE]
    exact ⟨c, hc, (hin hd).1, (hin hd).2, hm, hs⟩
  · obtain ⟨c, hc, _, _, _, _, _, hm, hs, _, hout⟩ :=
      hthm.1 (1 / 100) 40 0 0 0 (by decide) (by decide)
    have hd : zenithVariedRadius axisP5 (40 * CHUNK_SIZE) (0 * CHUNK_SIZE) 0 0 <
        zenithDistFromCenter axisP5 (40 * CHUNK_SIZE) (0 * CHUNK_SIZE) 0 0 := by
      norm_num [zenithDistFromCenter, zenithVariedRadius, zenithEdgeNoise, axisP5, map,
        CHUNK_SIZE]
    exact ⟨c, hc, (hout hd).1, (hout hd).2, hm, hs⟩
  · obtain ⟨_, _, _, _, hin, _⟩ := hthm.2 (1 / 2) 500 100 zenithInnerCell (by norm_num)
      (by norm_num) (by norm_num)
      (by norm_num [zenithInnerCell, CHUNK_HEIGHT_MIN, SEA_LEVEL])
    exact hin (by norm_num)
  · obtain ⟨_, _, _, _, _, hout⟩ := hthm.2 (1 / 2) 500 600 zenithCell (by norm_num)
      (by norm_num) (by norm_num) (by norm_num [zenithCell, CHUNK_HEIGHT_MIN, SEA_LEVEL])
    exact hout (by norm_num)

end BiomeGen
